import Mathlib

/-!
Verification development for the Panorama repository ("Paint the Sphere"
360-degree capture and stitch pipeline).

The definitions below are a shallow embedding of the capture-guidance code
(`PanoramaCapture`, src/unnamed/part_002) and of the stitch-orchestration
code (the Express server and its generated Python stitcher,
src/unnamed/part_009).  Angles are modelled as rationals; every concrete
constant appearing in the source (spans, sample offsets, loop bounds) is
exactly representable in double precision, so the rational arithmetic
coincides with the JavaScript float arithmetic on all values the code
manipulates.
-/

namespace Panorama

/-! ### Constants (src/unnamed/part_002, lines 41-66) -/

def H_FOV : ℚ := 60

def V_FOV : ℚ := 80

/-- Per the source: `PHOTO_H_SPAN = H_FOV * 0.65` (exactly 39 in doubles). -/
def PHOTO_H_SPAN : ℚ := H_FOV * (65 / 100)

/-- Per the source: `PHOTO_V_SPAN = V_FOV * 0.65` (exactly 52 in doubles). -/
def PHOTO_V_SPAN : ℚ := V_FOV * (65 / 100)

def CELL_SIZE : ℚ := 5

/-- Per the source: `GRID_COLS = Math.ceil(360 / CELL_SIZE)` = 72. -/
def GRID_COLS : ℕ := 72

/-- Per the source: `GRID_ROWS = Math.ceil(180 / CELL_SIZE)` = 36. -/
def GRID_ROWS : ℕ := 36

def TOTAL_CELLS : ℕ := GRID_COLS * GRID_ROWS

def TARGET_COVERAGE : ℚ := 85 / 100

def STABILITY_THRESHOLD : ℚ := 35 / 100

def CAPTURE_COOLDOWN_MS : ℤ := 700

def MIN_PHOTOS_FINISH : ℕ := 6

/-! ### JavaScript-style angle arithmetic -/

/-- Truncation toward zero, as used by the JavaScript `%` operator. -/
def jsTrunc (q : ℚ) : ℤ := if 0 ≤ q then ⌊q⌋ else ⌈q⌉

/-- The JavaScript remainder operator `a % b` (sign follows the dividend). -/
def jsMod (a b : ℚ) : ℚ := a - b * (jsTrunc (a / b) : ℚ)

/-- The idiom `((y % 360) + 360) % 360` used throughout the source to bring
a yaw angle into `[0, 360)`. -/
def wrap360 (y : ℚ) : ℚ := jsMod (jsMod y 360 + 360) 360

/-- Shortest signed angle delta, result in `[-180, 180]`
(src/unnamed/part_002, lines 72-75). -/
def angleDelta (f t : ℚ) : ℚ := jsMod (jsMod (t - f) 360 + 540) 360 - 180

/-- The JavaScript `%` on the (integer-valued) result of `Math.floor`. -/
def jsIntMod (a n : ℤ) : ℤ := if 0 ≤ a then a % n else -((-a) % n)

/-- Pitch clamping `Math.max(-90, Math.min(90, p))` as used in the source. -/
def clampPitch (p : ℚ) : ℚ := max (-90) (min 90 p)

/-! ### Coverage grid (src/unnamed/part_002, lines 78-85 and 143-161) -/

/-- Convert `(yaw, pitch)` to a grid cell `(col, row)`
(src/unnamed/part_002, lines 78-85):
`col = Math.floor((((yaw % 360) + 360) % 360) / CELL_SIZE) % GRID_COLS`,
`row = Math.floor((90 - pitch) / CELL_SIZE)`, both clamped into range. -/
def toCell (yaw pitch : ℚ) : ℕ × ℕ :=
  let col : ℤ := jsIntMod ⌊wrap360 yaw / CELL_SIZE⌋ (GRID_COLS : ℤ)
  let row : ℤ := ⌊(90 - pitch) / CELL_SIZE⌋
  ((max 0 (min ((GRID_COLS : ℤ) - 1) col)).toNat,
   (max 0 (min ((GRID_ROWS : ℤ) - 1) row)).toNat)

/-- The flat boolean coverage array `coverageGrid.current`, modelled as a
function from flat index `row * GRID_COLS + col` to a flag. -/
def Grid : Type := ℕ → Bool

def emptyGrid : Grid := fun _ => false

def cellIndex (row col : ℕ) : ℕ := row * GRID_COLS + col

/-- Model of the assignment `coverageGrid.current[i] = true`. -/
def setCell (g : Grid) (i : ℕ) : Grid := fun j => if j = i then true else g j

/-- Values visited by the loop `for (let v = lo; v <= hi; v += step)` for a
positive step.  All loop values in the source are exactly representable in
double precision, so the rational loop visits exactly the same values. -/
def floatLoop (lo hi step : ℚ) : List ℚ :=
  (List.range (⌊(hi - lo) / step⌋ + 1).toNat).map
    (fun k : ℕ => lo + step * (k : ℚ))

/-- Horizontal sample offsets of `markCoverage`:
`for (let dx = -halfH; dx <= halfH; dx += CELL_SIZE)` with
`halfH = PHOTO_H_SPAN / 2`. -/
def dxListMark : List ℚ := floatLoop (-(PHOTO_H_SPAN / 2)) (PHOTO_H_SPAN / 2) CELL_SIZE

/-- Vertical sample offsets of `markCoverage`:
`for (let dy = -halfV; dy <= halfV; dy += CELL_SIZE)` with
`halfV = PHOTO_V_SPAN / 2`. -/
def dyListMark : List ℚ := floatLoop (-(PHOTO_V_SPAN / 2)) (PHOTO_V_SPAN / 2) CELL_SIZE

/-- `markCoverage(yaw, pitch)` (src/unnamed/part_002, lines 143-161): marks
every sampled cell of the photo footprint; sample pitches outside
`[-90, 90]` are skipped (`continue`), and `toCell` is applied to
`yaw + dx`. -/
def markCoverage (yaw pitch : ℚ) (g : Grid) : Grid :=
  dyListMark.foldl
    (fun g1 dy =>
      dxListMark.foldl
        (fun g2 dx =>
          let pPitch := pitch + dy
          if pPitch < -90 ∨ 90 < pPitch then g2
          else
            let cr := toCell (yaw + dx) pPitch
            setCell g2 (cellIndex cr.2 cr.1))
        g1)
    g

/-- The covered-cell count computed by the tally loop of `markCoverage`
(src/unnamed/part_002, lines 156-159). -/
def countCovered (g : Grid) : ℕ := (List.range TOTAL_CELLS).countP (fun i => g i)

/-- `coverage` state: covered count divided by total cells
(src/unnamed/part_002, line 160). -/
def coverageRatio (g : Grid) : ℚ := (countCovered g : ℚ) / (TOTAL_CELLS : ℚ)

/-! ### Captured photos and frontier guides
(src/unnamed/part_002, lines 91-104 and 166-218) -/

/-- A captured photo.  The image URI is abstracted away; the `manual` flag
records whether the photo came from the shutter button or from the
auto-capture rule (provenance annotation used to state the first-photo
invariant). -/
structure CapturedPhoto where
  manual : Bool
  yaw : ℚ
  pitch : ℚ
deriving DecidableEq

inductive GuideDir where
  | left
  | right
  | up
  | down
deriving DecidableEq

structure FrontierGuide where
  yaw : ℚ
  pitch : ℚ
  direction : GuideDir

/-- The eight local probes around the last capture
(src/unnamed/part_002, lines 173-182).  The diagonal factors stand for the
source's `0.75` and `0.6` multipliers. -/
def probeOffsets : List (ℚ × ℚ × GuideDir) :=
  [(PHOTO_H_SPAN * (75 / 100), 0, GuideDir.right),
   (-(PHOTO_H_SPAN * (75 / 100)), 0, GuideDir.left),
   (0, PHOTO_V_SPAN * (75 / 100), GuideDir.up),
   (0, -(PHOTO_V_SPAN * (75 / 100)), GuideDir.down),
   (PHOTO_H_SPAN * (6 / 10), PHOTO_V_SPAN * (6 / 10), GuideDir.right),
   (-(PHOTO_H_SPAN * (6 / 10)), PHOTO_V_SPAN * (6 / 10), GuideDir.left),
   (PHOTO_H_SPAN * (6 / 10), -(PHOTO_V_SPAN * (6 / 10)), GuideDir.right),
   (-(PHOTO_H_SPAN * (6 / 10)), -(PHOTO_V_SPAN * (6 / 10)), GuideDir.left)]

/-- Global lattice azimuths (src/unnamed/part_002, line 194). -/
def checkYaws : List ℚ := [0, 45, 90, 135, 180, 225, 270, 315]

/-- Global lattice elevations (src/unnamed/part_002, line 195). -/
def checkPitches : List ℚ := [-60, -30, 0, 30, 60]

/-- The deduplication test in the global pass: a candidate is `tooClose`
when an already-emitted guide is within 30 degrees on both axes
(src/unnamed/part_002, lines 200-204). -/
def tooClose (acc : List FrontierGuide) (cYaw cPitch : ℚ) : Bool :=
  acc.any (fun gd =>
    decide (|angleDelta gd.yaw cYaw| < 30) && decide (|gd.pitch - cPitch| < 30))

/-- The local pass of `computeFrontierGuides` (src/unnamed/part_002,
lines 173-191): eight probes around the last capture; a probe becomes a
guide (wrapped yaw, clamped pitch) iff its cell is uncovered. -/
def localPass (lastP : CapturedPhoto) (g : Grid) : List FrontierGuide :=
  probeOffsets.foldl
    (fun acc pr =>
      let gYaw := wrap360 (lastP.yaw + pr.1)
      let gPitch := clampPitch (lastP.pitch + pr.2.1)
      let cr := toCell gYaw gPitch
      if g (cellIndex cr.2 cr.1) then acc
      else acc ++ [⟨gYaw, gPitch, pr.2.2⟩])
    []

/-- The global pass of `computeFrontierGuides` (src/unnamed/part_002,
lines 193-215): scan the coarse lattice, emitting a guide for each
uncovered cell not already represented (`tooClose`) among the guides
gathered so far; the direction label points toward the candidate from the
current yaw. -/
def globalPass (curYaw : ℚ) (g : Grid) (acc0 : List FrontierGuide) :
    List FrontierGuide :=
  checkYaws.foldl
    (fun acc cYaw =>
      checkPitches.foldl
        (fun acc2 cPitch =>
          let cr := toCell cYaw cPitch
          if g (cellIndex cr.2 cr.1) then acc2
          else if tooClose acc2 cYaw cPitch then acc2
          else
            acc2 ++
              [⟨cYaw, cPitch,
                if 0 < angleDelta curYaw cYaw then GuideDir.right
                else GuideDir.left⟩])
        acc)
    acc0

/-- `computeFrontierGuides` with a non-empty photo list
(src/unnamed/part_002, lines 166-218): the caller passes the last photo
and the current yaw reference; the local probes run first and the global
lattice extends their output. -/
def computeFrontierGuides (lastP : CapturedPhoto) (curYaw : ℚ) (g : Grid) :
    List FrontierGuide :=
  globalPass curYaw g (localPass lastP g)

/-! ### Auto-capture guard (src/unnamed/part_002, lines 269-310) -/

inductive Phase where
  | ready
  | capturing
  | processing
  | done
deriving DecidableEq

/-- The five field-of-view sample offsets: center, `±H_FOV*0.3` horizontal,
`±V_FOV*0.3` vertical (src/unnamed/part_002, lines 285-291). -/
def sampleOffsets : List (ℚ × ℚ) :=
  [(0, 0),
   (H_FOV * (3 / 10), 0),
   (-(H_FOV * (3 / 10)), 0),
   (0, V_FOV * (3 / 10)),
   (0, -(V_FOV * (3 / 10)))]

/-- Classify one sample against the grid (src/unnamed/part_002,
lines 296-304): clamp the sample pitch, convert to a cell, look it up. -/
def sampleCovered (g : Grid) (yaw pitch : ℚ) (s : ℚ × ℚ) : Bool :=
  let sPitch := max (-90) (min 90 (pitch + s.2))
  let cr := toCell (yaw + s.1) sPitch
  g (cellIndex cr.2 cr.1)

/-- A synthetic grid with exactly one covered cell, at row 18 column 0
(the cell seen by the centered sample of an orientation at yaw 0,
pitch 0). -/
def gridOneCell : Grid := setCell emptyGrid (cellIndex 18 0)

def coveredSamples (g : Grid) (yaw pitch : ℚ) : ℕ :=
  sampleOffsets.countP (fun s => sampleCovered g yaw pitch s)

def uncoveredSamples (g : Grid) (yaw pitch : ℚ) : ℕ :=
  sampleOffsets.countP (fun s => !sampleCovered g yaw pitch s)

/-- The auto-capture guard evaluated on each tick (src/unnamed/part_002,
lines 269-310), as one pure function.  The early returns of the effect are
mirrored in order: not capturing or a capture in flight; empty photo list
(first photo is manual); cooldown not yet elapsed; device not stable on
both axes; finally the frontier condition on the five samples. -/
def autoCaptureCheck (phase : Phase) (snapping : Bool) (photosLen : ℕ)
    (now lastTs : ℤ) (rateA rateB : ℚ) (g : Grid) (yaw pitch : ℚ) : Bool :=
  if phase ≠ Phase.capturing ∨ snapping then false
  else if photosLen = 0 then false
  else if now - lastTs < CAPTURE_COOLDOWN_MS then false
  else if ¬(rateA < STABILITY_THRESHOLD ∧ rateB < STABILITY_THRESHOLD) then false
  else decide (1 ≤ coveredSamples g yaw pitch ∧ 2 ≤ uncoveredSamples g yaw pitch)

/-! ### Session events (src/unnamed/part_002, lines 269-346 and 434-460)

The capture flow is asynchronous: `captureFrame` sets the busy flag and the
capture timestamp, awaits the camera, and on resolution appends the photo
and marks the grid.  `startCapture`/`resetAll` replace the photo list and
the grid but do not cancel a pending `takePictureAsync`, so a pending
resolution survives both. -/

inductive Event where
  /-- `startCapture` (lines 434-443); only reachable from the `ready`
  screen. -/
  | start
  /-- Shutter button press, calling `captureFrame` (lines 315-318); only
  rendered during `capturing`. -/
  | trigManual (now : ℤ)
  /-- One guidance tick evaluating the auto-capture guard (lines 269-310)
  against the current orientation and rotation rates. -/
  | tick (now : ℤ) (yaw pitch rateA rateB : ℚ)
  /-- `takePictureAsync` resolves successfully (lines 320-340): the photo is
  appended with the orientation read at resolution time and the grid is
  marked. -/
  | resolve (yaw pitch : ℚ)
  /-- `takePictureAsync` rejects (lines 341-345): no append, busy flag
  cleared. -/
  | resolveFail
  /-- `resetAll` (lines 453-460). -/
  | reset

structure SessionState where
  phase : Phase
  photos : List CapturedPhoto
  grid : Grid
  lastCaptureTs : ℤ
  /-- The in-flight capture, if any, tagged with its trigger provenance
  (`some true` = manual, `some false` = auto).  Mirrors `isSnapping`. -/
  pending : Option Bool

def initState : SessionState :=
  { phase := Phase.ready, photos := [], grid := emptyGrid,
    lastCaptureTs := 0, pending := none }

def step (st : SessionState) (e : Event) : SessionState :=
  match e with
  | Event.start =>
      if st.phase = Phase.ready then
        { st with phase := Phase.capturing, photos := [], grid := emptyGrid,
                  lastCaptureTs := 0 }
      else st
  | Event.trigManual now =>
      if st.phase = Phase.capturing ∧ st.pending = none then
        { st with pending := some true, lastCaptureTs := now }
      else st
  | Event.tick now yaw pitch rateA rateB =>
      if autoCaptureCheck st.phase st.pending.isSome st.photos.length now
          st.lastCaptureTs rateA rateB st.grid yaw pitch then
        { st with pending := some false, lastCaptureTs := now }
      else st
  | Event.resolve yaw pitch =>
      match st.pending with
      | none => st
      | some m =>
          { st with photos := st.photos ++ [⟨m, yaw, pitch⟩],
                    grid := markCoverage yaw pitch st.grid, pending := none }
  | Event.resolveFail => { st with pending := none }
  | Event.reset =>
      { st with phase := Phase.ready, photos := [], grid := emptyGrid }

def run (events : List Event) (st : SessionState) : SessionState :=
  events.foldl step st

/-- Trace predicate: no `reset` event arrives while a capture is in
flight. -/
def noResetWhilePending : SessionState → List Event → Bool
  | _, [] => true
  | st, e :: es =>
      (match e with
       | Event.reset => st.pending.isNone
       | _ => true) && noResetWhilePending (step st e) es

/-- Inductive invariant for the first-photo property: the head of the
photo list is manually triggered, an auto capture can only be in flight
with a non-empty photo list, and no auto capture is in flight on the ready
screen. -/
def SessInv (st : SessionState) : Prop :=
  (∀ pr, st.photos.head? = some pr → pr.manual = true)
  ∧ (st.pending = some false → st.photos ≠ [])
  ∧ (st.phase = Phase.ready → st.pending ≠ some false)

/-! ### Stitch orchestration (src/unnamed/part_009)

The generated Python (`generateEquirectangularScript`, lines 908-1071)
defines `stitch_equirectangular` and `try_row_stitch`.  Images are
modelled by their pixel dimensions plus an opaque tag identifying the
pixel content; the external OpenCV stitching capability
(`cv2.Stitcher.stitch`) is a black-box parameter returning `some pano`
for `Stitcher_OK` and `none` for any failure status, and the black-border
crop (lines 989-996) is likewise an opaque image transformation. -/

structure Img where
  w : ℕ
  h : ℕ
  tag : ℕ
deriving DecidableEq

instance : Inhabited Img := ⟨⟨0, 0, 0⟩⟩

/-- Per-photo orientation as consumed by the Python stitcher (it reads
only the `yaw` and `pitch` fields of each metadata record). -/
structure Ori where
  yaw : ℚ
  pitch : ℚ
deriving DecidableEq

/-- Python `round` (banker's rounding: ties go to the even integer). -/
def pyRound (q : ℚ) : ℤ :=
  let f := ⌊q⌋
  let r := q - (f : ℚ)
  if r < 1 / 2 then f
  else if 1 / 2 < r then f + 1
  else if f % 2 = 0 then f else f + 1

/-- The pitch bucket `round(pitch / 30) * 30` (part_009, line 1021). -/
def pitchBucket (o : Ori) : ℤ := pyRound (o.pitch / 30) * 30

/-- Keys of a Python dict in insertion order: first occurrences kept. -/
def dedupFirstAux (seen : List ℤ) : List ℤ → List ℤ
  | [] => []
  | x :: xs =>
      if x ∈ seen then dedupFirstAux seen xs
      else x :: dedupFirstAux (x :: seen) xs

def dedupFirst (l : List ℤ) : List ℤ := dedupFirstAux [] l

/-- Insertion step of a descending sort of the (distinct) bucket keys,
modelling Python's `sorted(rows.keys(), reverse=True)`. -/
def insertDescInt (x : ℤ) : List ℤ → List ℤ
  | [] => [x]
  | y :: ys => if y < x then x :: y :: ys else y :: insertDescInt x ys

def sortDescInt (l : List ℤ) : List ℤ :=
  l.foldl (fun acc x => insertDescInt x acc) []

/-- The bucket keys iterated by `try_row_stitch`, in descending pitch
order (part_009, line 1028). -/
def rowKeys (oris : List Ori) : List ℤ :=
  sortDescInt (dedupFirst (oris.map pitchBucket))

/-- The images landing in the bucket with key `k` (part_009,
lines 1019-1022): photos are zipped with their orientations and grouped by
rounded pitch, preserving order within a bucket. -/
def bucketImgs (images : List Img) (oris : List Ori) (k : ℤ) : List Img :=
  (images.zip oris).filterMap
    (fun p => if pitchBucket p.2 = k then some p.1 else none)

/-- Stitching one pitch row (part_009, lines 1029-1040): a single-photo
bucket passes through unchanged; a bucket whose stitch fails degrades to
its first photo. -/
def stitchRow (stitcher : List Img → Option Img) (imgs : List Img) : Img :=
  match imgs with
  | [] => default
  | [i] => i
  | i :: _ :: _ =>
      match stitcher imgs with
      | some pano => pano
      | none => i

/-- All row strips, in descending bucket-key order. -/
def rowStrips (stitcher : List Img → Option Img) (images : List Img)
    (oris : List Ori) : List Img :=
  (rowKeys oris).map (fun k => stitchRow stitcher (bucketImgs images oris k))

/-- `max(r.shape[1] for r in stitched_rows)` (part_009, line 1046). -/
def maxWidth (rows : List Img) : ℕ := (rows.map Img.w).foldl max 0

/-- Width normalization of one strip (part_009, lines 1048-1052): a strip
narrower than the common width is uniformly rescaled to it
(`cv2.resize(r, (max_w, int(r.shape[0] * scale)))`). -/
def normWidth (mw : ℕ) (r : Img) : Img :=
  if r.w = mw then r else ⟨mw, r.h * mw / r.w, r.tag⟩

/-- `np.vstack` on equal-width strips (part_009, line 1054): widths agree,
heights add; the stacked pixel content gets a fresh tag. -/
def vstackImgs (rows : List Img) : Img :=
  ⟨(rows.headD default).w, (rows.map Img.h).sum, 0⟩

/-- `try_row_stitch` (part_009, lines 1010-1056): `None` when orientations
are missing or mismatched; otherwise bucket by rounded pitch, stitch each
bucket, normalize widths, stack vertically. -/
def try_row_stitch (stitcher : List Img → Option Img) (images : List Img)
    (oris : List Ori) : Option Img :=
  if oris.isEmpty || decide (oris.length ≠ images.length) then none
  else
    let strips := rowStrips stitcher images oris
    if strips.isEmpty then none
    else some (vstackImgs (strips.map (normWidth (maxWidth strips))))

/-- Sort key comparison for the initial photo ordering (part_009,
line 942): lexicographic on `(round(pitch / 30), yaw)`.  `a ≤ b` as a
boolean, so that insertion keeps equal keys in input order (Python's sort
is stable). -/
def oriKeyLE (a b : Ori) : Bool :=
  decide (pyRound (a.pitch / 30) < pyRound (b.pitch / 30)) ||
    (decide (pyRound (a.pitch / 30) = pyRound (b.pitch / 30)) &&
      decide (a.yaw ≤ b.yaw))

/-- Stable insertion for the photo sort: the new element goes after every
element whose key is less than or equal to its own. -/
def insertByOri (x : Img × Ori) : List (Img × Ori) → List (Img × Ori)
  | [] => [x]
  | y :: ys => if oriKeyLE y.2 x.2 then y :: insertByOri x ys else x :: y :: ys

def sortPaired (l : List (Img × Ori)) : List (Img × Ori) :=
  l.foldl (fun acc x => insertByOri x acc) []

/-- The orientation-based photo reordering at the top of
`stitch_equirectangular` (part_009, lines 939-945); skipped entirely when
no orientations were supplied. -/
def sortedPhotoPair (images : List Img) (oris : List Ori) :
    List Img × List Ori :=
  if oris.isEmpty then (images, oris)
  else
    let paired := sortPaired (images.zip oris)
    (paired.map Prod.fst, paired.map Prod.snd)

/-- The forced resize to the fixed equirectangular canvas (part_009,
lines 998-1002): `cv2.resize(pano, (4096, 2048))`. -/
def resizeTo (wt ht : ℕ) (i : Img) : Img := ⟨wt, ht, i.tag⟩

/-- `stitch_equirectangular` (part_009, lines 932-1007): sort, attempt the
whole-set stitch, fall back to `try_row_stitch` on failure (raising, i.e.
`none`, when even the fallback yields nothing), then crop black borders
and force the 4096 by 2048 canvas. -/
def stitch_equirectangular (stitcher : List Img → Option Img)
    (crop : Img → Img) (images : List Img) (oris : List Ori) : Option Img :=
  let pr := sortedPhotoPair images oris
  match stitcher pr.1 with
  | some pano => some (resizeTo 4096 2048 (crop pano))
  | none =>
      match try_row_stitch stitcher pr.1 pr.2 with
      | none => none
      | some pano => some (resizeTo 4096 2048 (crop pano))

/-! ### The stitch endpoint (src/unnamed/part_009, lines 682-786 and
893-903) -/

inductive StitchMethod where
  | opencvEquirect
  | simple
deriving DecidableEq

structure StitchResponse where
  success : Bool
  httpStatus : ℕ
  method : Option StitchMethod
  output : Option Img
deriving DecidableEq

/-- `createSimplePanorama` (part_009, lines 893-903): copies the first
uploaded image, unchanged, to the output path. -/
def createSimplePanorama (photos : List Img) : Option Img := photos.head?

/-- The `/api/stitch-panorama` handler (part_009, lines 682-786): reject
fewer than 3 photos with HTTP 400; otherwise run the OpenCV path when
Python is available and `createSimplePanorama` when it is not, reporting
the chosen method; any failure becomes HTTP 500. -/
def handleStitchPanorama (pythonAvailable : Bool) (opencvResult : Option Img)
    (photos : List Img) : StitchResponse :=
  if photos.length < 3 then ⟨false, 400, none, none⟩
  else
    match (if pythonAvailable then opencvResult else createSimplePanorama photos) with
    | some img =>
        ⟨true, 200,
         some (if pythonAvailable then StitchMethod.opencvEquirect
               else StitchMethod.simple),
         some img⟩
    | none => ⟨false, 500, none, none⟩

/-! ## Lemmas: wrapped yaw arithmetic -/

theorem jsTrunc_of_nonneg (q : ℚ) (h : 0 ≤ q) : jsTrunc q = ⌊q⌋ := if_pos h

theorem jsTrunc_of_neg (q : ℚ) (h : q < 0) : jsTrunc q = ⌈q⌉ :=
  if_neg (not_le.mpr h)

theorem jsMod360_eval (a : ℚ) : jsMod a 360 = a - 360 * (jsTrunc (a / 360) : ℚ) :=
  rfl

/-- The double-`%` idiom computes the canonical representative:
`wrap360 y = 360 * fract (y / 360)`. -/
theorem wrap360_eq_fract (y : ℚ) : wrap360 y = 360 * Int.fract (y / 360) := by
  have h360 : (0 : ℚ) < 360 := by norm_num
  have hsplit : y = 360 * (y / 360) := by field_simp
  have hfr0 : 0 ≤ Int.fract (y / 360) := Int.fract_nonneg _
  have hfr1 : Int.fract (y / 360) < 1 := Int.fract_lt_one _
  rcases le_or_lt 0 y with hy | hy
  · have hx : 0 ≤ y / 360 := div_nonneg hy h360.le
    have hinner : jsMod y 360 = 360 * Int.fract (y / 360) := by
      rw [jsMod360_eval, jsTrunc_of_nonneg _ hx, Int.fract]
      push_cast
      linarith [hsplit]
    have harg : (360 * Int.fract (y / 360) + 360) / 360 = Int.fract (y / 360) + 1 := by
      field_simp
      ring
    have hfl1 : ⌊Int.fract (y / 360) + 1⌋ = 1 := by
      rw [Int.floor_eq_iff] <;> push_cast <;> constructor <;> linarith
    unfold wrap360
    rw [hinner, jsMod360_eval, harg, jsTrunc_of_nonneg _ (by linarith), hfl1]
    push_cast
    ring
  · have hx : y / 360 < 0 := div_neg_of_neg_of_pos hy h360
    have hinner : jsMod y 360 = y - 360 * (⌈y / 360⌉ : ℚ) := by
      rw [jsMod360_eval, jsTrunc_of_neg _ hx]
    by_cases hfr : Int.fract (y / 360) = 0
    · have hfl : (⌊y / 360⌋ : ℚ) = y / 360 := by
        unfold Int.fract at hfr
        linarith
      have hceil : ⌈y / 360⌉ = ⌊y / 360⌋ := by
        rw [Int.ceil_eq_iff]
        constructor
        · push_cast
          linarith
        · rw [hfl]
      have hm : jsMod y 360 = 0 := by
        rw [hinner, hceil, hfl]
        linarith [hsplit]
      have harg : ((0 : ℚ) + 360) / 360 = 1 := by norm_num
      unfold wrap360
      rw [hm, jsMod360_eval, harg, jsTrunc_of_nonneg _ (by norm_num), Int.floor_one]
      rw [hfr]
      push_cast
      ring
    · have hceil : ⌈y / 360⌉ = ⌊y / 360⌋ + 1 := by
        have h1 : ⌈y / 360⌉ ≤ ⌊y / 360⌋ + 1 := Int.ceil_le_floor_add_one _
        have h2 : ⌊y / 360⌋ ≤ ⌈y / 360⌉ := Int.floor_le_ceil _
        have h3 : ⌊y / 360⌋ ≠ ⌈y / 360⌉ := by
          intro hcon
          apply hfr
          have hconq : ((⌊y / 360⌋ : ℤ) : ℚ) = ((⌈y / 360⌉ : ℤ) : ℚ) := by
            exact_mod_cast congrArg (fun z : ℤ => (z : ℚ)) hcon
          have h4 : (⌊y / 360⌋ : ℚ) ≤ y / 360 := Int.floor_le _
          have h5 : y / 360 ≤ (⌈y / 360⌉ : ℚ) := Int.le_ceil _
          unfold Int.fract
          linarith
        omega
      have hm : jsMod y 360 = 360 * Int.fract (y / 360) - 360 := by
        rw [hinner, hceil, Int.fract]
        push_cast
        linarith [hsplit]
      have hfrpos : 0 < Int.fract (y / 360) := lt_of_le_of_ne hfr0 (Ne.symm hfr)
      have harg :
          (360 * Int.fract (y / 360) - 360 + 360) / 360 = Int.fract (y / 360) := by
        field_simp
      have hfl0 : ⌊Int.fract (y / 360)⌋ = 0 := by
        rw [Int.floor_eq_iff] <;> push_cast <;> constructor <;> linarith
      unfold wrap360
      rw [hm, jsMod360_eval, harg, jsTrunc_of_nonneg _ hfr0, hfl0]
      push_cast
      ring

theorem wrap360_nonneg (y : ℚ) : 0 ≤ wrap360 y := by
  rw [wrap360_eq_fract]
  have := Int.fract_nonneg (y / 360)
  linarith

theorem wrap360_lt_360 (y : ℚ) : wrap360 y < 360 := by
  rw [wrap360_eq_fract]
  have := Int.fract_lt_one (y / 360)
  linarith

theorem wrap360_add_360 (y : ℚ) : wrap360 (y + 360) = wrap360 y := by
  have hdiv : (y + 360) / 360 = y / 360 + ((1 : ℤ) : ℚ) := by
    push_cast
    field_simp
  rw [wrap360_eq_fract, wrap360_eq_fract, hdiv, Int.fract_add_int]

theorem wrap360_eq_self (y : ℚ) (h0 : 0 ≤ y) (h1 : y < 360) : wrap360 y = y := by
  rw [wrap360_eq_fract, Int.fract_eq_self.mpr
        ⟨div_nonneg h0 (by norm_num), by rw [div_lt_one (by norm_num)]; exact h1⟩]
  field_simp

theorem wrap360_neg_eq (y : ℚ) (h0 : -360 < y) (h1 : y < 0) :
    wrap360 y = y + 360 := by
  rw [← wrap360_add_360 y]
  exact wrap360_eq_self (y + 360) (by linarith) (by linarith)

/-! ## Lemmas: cell addressing -/

theorem toCell_fst_lt (y p : ℚ) : (toCell y p).1 < GRID_COLS := by
  unfold toCell
  simp only
  have h1 : max 0 (min ((GRID_COLS : ℤ) - 1)
      (jsIntMod ⌊wrap360 y / CELL_SIZE⌋ (GRID_COLS : ℤ))) ≤ (GRID_COLS : ℤ) - 1 :=
    max_le (by norm_num [GRID_COLS]) (min_le_left _ _)
  have h2 : ((GRID_COLS : ℤ) - 1) = ((GRID_COLS - 1 : ℕ) : ℤ) := by
    norm_num [GRID_COLS]
  rw [h2] at h1
  have := Int.toNat_le.mpr h1
  norm_num [GRID_COLS] at this ⊢

theorem toCell_snd_lt (y p : ℚ) : (toCell y p).2 < GRID_ROWS := by
  unfold toCell
  simp only
  have h1 : max 0 (min ((GRID_ROWS : ℤ) - 1) ⌊(90 - p) / CELL_SIZE⌋) ≤
      (GRID_ROWS : ℤ) - 1 :=
    max_le (by norm_num [GRID_ROWS]) (min_le_left _ _)
  have h2 : ((GRID_ROWS : ℤ) - 1) = ((GRID_ROWS - 1 : ℕ) : ℤ) := by
    norm_num [GRID_ROWS]
  rw [h2] at h1
  have := Int.toNat_le.mpr h1
  norm_num [GRID_ROWS] at this ⊢

/-- The column of a cell does not depend on the pitch argument. -/
theorem toCell_fst_pitch (y p q : ℚ) : (toCell y p).1 = (toCell y q).1 := rfl

theorem cellIndex_lt (r c : ℕ) (hr : r < GRID_ROWS) (hc : c < GRID_COLS) :
    cellIndex r c < TOTAL_CELLS := by
  unfold cellIndex TOTAL_CELLS
  unfold GRID_ROWS GRID_COLS at *
  omega

/-- Evaluation rule for `toCell` when the target cell is known: the wrapped
yaw lands in column band `c` and the pitch lands in row band `r`. -/
theorem toCell_eq_mk (y p : ℚ) (c r : ℕ) (hc : c < 72) (hr : r < 36)
    (h1 : (c : ℚ) * 5 ≤ wrap360 y) (h2 : wrap360 y < (c : ℚ) * 5 + 5)
    (h3 : (r : ℚ) * 5 ≤ 90 - p) (h4 : 90 - p < (r : ℚ) * 5 + 5) :
    toCell y p = (c, r) := by
  have hcol : ⌊wrap360 y / CELL_SIZE⌋ = (c : ℤ) := by
    rw [Int.floor_eq_iff]
    unfold CELL_SIZE
    constructor
    · rw [le_div_iff (by norm_num : (0 : ℚ) < 5)]
      push_cast
      linarith
    · rw [div_lt_iff (by norm_num : (0 : ℚ) < 5)]
      push_cast
      linarith
  have hrow : ⌊(90 - p) / CELL_SIZE⌋ = (r : ℤ) := by
    rw [Int.floor_eq_iff]
    unfold CELL_SIZE
    constructor
    · rw [le_div_iff (by norm_num : (0 : ℚ) < 5)]
      push_cast
      linarith
    · rw [div_lt_iff (by norm_num : (0 : ℚ) < 5)]
      push_cast
      linarith
  have hmod : jsIntMod (c : ℤ) (GRID_COLS : ℤ) = (c : ℤ) := by
    unfold jsIntMod
    rw [if_pos (Int.natCast_nonneg c)]
    apply Int.emod_eq_of_lt (Int.natCast_nonneg c)
    norm_num [GRID_COLS]
    exact_mod_cast hc
  simp only [toCell]
  rw [hcol, hrow, hmod]
  have hc71 : (c : ℤ) ≤ (GRID_COLS : ℤ) - 1 := by
    norm_num [GRID_COLS]
    omega
  have hr35 : (r : ℤ) ≤ (GRID_ROWS : ℤ) - 1 := by
    norm_num [GRID_ROWS]
    omega
  rw [min_eq_right hc71, min_eq_right hr35,
      max_eq_right (by positivity : (0 : ℤ) ≤ (c : ℤ)),
      max_eq_right (by positivity : (0 : ℤ) ≤ (r : ℤ))]
  simp

/-- Concrete evaluation of `toCell` for a yaw already in `[0, 360)`. -/
theorem toCell_eval_pos (y p : ℚ) (c r : ℕ) (hc : c < 72) (hr : r < 36)
    (hy0 : 0 ≤ y) (hy1 : y < 360)
    (h1 : (c : ℚ) * 5 ≤ y) (h2 : y < (c : ℚ) * 5 + 5)
    (h3 : (r : ℚ) * 5 ≤ 90 - p) (h4 : 90 - p < (r : ℚ) * 5 + 5) :
    toCell y p = (c, r) := by
  refine toCell_eq_mk y p c r hc hr ?_ ?_ h3 h4 <;>
    rw [wrap360_eq_self y hy0 hy1] <;> assumption

/-- Concrete evaluation of `toCell` for a yaw in `(-360, 0)`. -/
theorem toCell_eval_neg (y p : ℚ) (c r : ℕ) (hc : c < 72) (hr : r < 36)
    (hy0 : -360 < y) (hy1 : y < 0)
    (h1 : (c : ℚ) * 5 ≤ y + 360) (h2 : y + 360 < (c : ℚ) * 5 + 5)
    (h3 : (r : ℚ) * 5 ≤ 90 - p) (h4 : 90 - p < (r : ℚ) * 5 + 5) :
    toCell y p = (c, r) := by
  refine toCell_eq_mk y p c r hc hr ?_ ?_ h3 h4 <;>
    rw [wrap360_neg_eq y hy0 hy1] <;> assumption

/-! ## Lemmas: grid updates -/

theorem setCell_true_iff (g : Grid) (i j : ℕ) :
    setCell g i j = true ↔ j = i ∨ g j = true := by
  unfold setCell
  split <;> simp_all

/-- Cells covered after a guarded marking fold: exactly the freshly marked
indices plus the previously covered cells. -/
theorem foldl_guardMark_true_iff {α : Type} (cond : α → Prop)
    [DecidablePred cond] (idx : α → ℕ) :
    ∀ (l : List α) (g : Grid) (j : ℕ),
      (l.foldl (fun g2 a => if cond a then g2 else setCell g2 (idx a)) g) j = true ↔
        (∃ a ∈ l, ¬cond a ∧ idx a = j) ∨ g j = true := by
  intro l
  induction l with
  | nil => simp
  | cons x xs ih =>
      intro g j
      simp only [List.foldl_cons]
      rw [ih]
      by_cases hc : cond x
      · rw [if_pos hc]
        simp only [List.mem_cons]
        constructor
        · rintro (⟨a, ha, hna, hia⟩ | hg)
          · exact Or.inl ⟨a, Or.inr ha, hna, hia⟩
          · exact Or.inr hg
        · rintro (⟨a, ha | ha, hna, hia⟩ | hg)
          · exact absurd hc (ha ▸ hna)
          · exact Or.inl ⟨a, ha, hna, hia⟩
          · exact Or.inr hg
      · rw [if_neg hc]
        rw [show (setCell g (idx x)) j = true ↔ j = idx x ∨ g j = true from
              setCell_true_iff g (idx x) j]
        simp only [List.mem_cons]
        constructor
        · rintro (⟨a, ha, hna, hia⟩ | hj | hg)
          · exact Or.inl ⟨a, Or.inr ha, hna, hia⟩
          · exact Or.inl ⟨x, Or.inl rfl, hc, hj.symm⟩
          · exact Or.inr hg
        · rintro (⟨a, ha | ha, hna, hia⟩ | hg)
          · exact Or.inr (Or.inl (by rw [← hia, ha]))
          · exact Or.inl ⟨a, ha, hna, hia⟩
          · exact Or.inr (Or.inr hg)

/-- Unfolding of `markCoverage` with the loop bodies in guarded form. -/
theorem markCoverage_def (y p : ℚ) (g : Grid) :
    markCoverage y p g =
      dyListMark.foldl
        (fun g1 dy =>
          dxListMark.foldl
            (fun g2 dx =>
              if p + dy < -90 ∨ 90 < p + dy then g2
              else
                setCell g2
                  (cellIndex (toCell (y + dx) (p + dy)).2
                    (toCell (y + dx) (p + dy)).1))
            g1)
        g := rfl

/-- Bridge lemma: a cell is covered after `markCoverage` iff it is one of
the in-range footprint samples or was already covered. -/
theorem markCoverage_true_iff (y p : ℚ) (g : Grid) (j : ℕ) :
    markCoverage y p g j = true ↔
      (∃ dy ∈ dyListMark, ¬(p + dy < -90 ∨ 90 < p + dy) ∧
        ∃ dx ∈ dxListMark,
          cellIndex (toCell (y + dx) (p + dy)).2 (toCell (y + dx) (p + dy)).1 = j)
      ∨ g j = true := by
  rw [markCoverage_def]
  generalize dyListMark = L
  induction L generalizing g with
  | nil => simp
  | cons dy dys ih =>
      simp only [List.foldl_cons]
      rw [ih]
      rw [foldl_guardMark_true_iff (fun _ => p + dy < -90 ∨ 90 < p + dy)
            (fun dx => cellIndex (toCell (y + dx) (p + dy)).2
              (toCell (y + dx) (p + dy)).1) dxListMark g j]
      simp only [List.mem_cons]
      constructor
      · rintro (⟨dy2, hdy2, hcond, dx, hdx, hidx⟩ | ⟨dx, hdx, hcond, hidx⟩ | hg)
        · exact Or.inl ⟨dy2, Or.inr hdy2, hcond, dx, hdx, hidx⟩
        · exact Or.inl ⟨dy, Or.inl rfl, hcond, dx, hdx, hidx⟩
        · exact Or.inr hg
      · rintro (⟨dy2, hdy2 | hdy2, hcond, dx, hdx, hidx⟩ | hg)
        · exact Or.inr (Or.inl ⟨dx, hdx, hdy2 ▸ hcond, hdy2 ▸ hidx⟩)
        · exact Or.inl ⟨dy2, hdy2, hcond, dx, hdx, hidx⟩
        · exact Or.inr (Or.inr hg)

/-- Marking never clears a covered cell. -/
theorem markCoverage_mono_at (y p : ℚ) (g : Grid) (j : ℕ) (h : g j = true) :
    markCoverage y p g j = true :=
  (markCoverage_true_iff y p g j).mpr (Or.inr h)

/-- Marking never touches an index outside the flat array. -/
theorem markCoverage_oob (y p : ℚ) (g : Grid) (j : ℕ) (h : TOTAL_CELLS ≤ j) :
    markCoverage y p g j = g j := by
  cases hg : g j with
  | true => exact markCoverage_mono_at y p g j hg
  | false =>
      cases hm : markCoverage y p g j with
      | false => rfl
      | true =>
          exfalso
          rcases (markCoverage_true_iff y p g j).mp hm with
            ⟨dy, _, _, dx, _, hidx⟩ | hgj
          · have hlt := cellIndex_lt (toCell (y + dx) (p + dy)).2
              (toCell (y + dx) (p + dy)).1
              (toCell_snd_lt _ _) (toCell_fst_lt _ _)
            omega
          · rw [hg] at hgj
            exact Bool.false_ne_true hgj

/-! ## Lemmas: coverage ratio monotonicity -/

theorem countP_mono_pred (l : List ℕ) (p q : ℕ → Bool)
    (h : ∀ i, p i = true → q i = true) : l.countP p ≤ l.countP q := by
  induction l with
  | nil => simp
  | cons x xs ih =>
      rw [List.countP_cons, List.countP_cons]
      cases hp : p x with
      | false => simp only [Bool.false_eq_true, if_false]; omega
      | true => simp only [h x hp, if_true]; omega

theorem countCovered_le_mark (y p : ℚ) (g : Grid) :
    countCovered g ≤ countCovered (markCoverage y p g) :=
  countP_mono_pred _ _ _ (fun i => markCoverage_mono_at y p g i)

theorem coverageRatio_le_mark (y p : ℚ) (g : Grid) :
    coverageRatio g ≤ coverageRatio (markCoverage y p g) := by
  unfold coverageRatio
  rw [div_le_div_iff_of_pos_right (by norm_num [TOTAL_CELLS, GRID_COLS, GRID_ROWS])]
  exact_mod_cast countCovered_le_mark y p g

/-- C2.  For every starting grid and every sequence of `markCoverage`
calls, the coverage ratio is monotonically non-decreasing: no call ever
clears a covered cell or decreases the ratio. -/
theorem coverageRatio_monotone (calls : List (ℚ × ℚ)) (g : Grid) :
    coverageRatio g ≤
      coverageRatio (calls.foldl (fun acc c => markCoverage c.1 c.2 acc) g) := by
  induction calls generalizing g with
  | nil => exact le_refl _
  | cons c cs ih =>
      simp only [List.foldl_cons]
      exact le_trans (coverageRatio_le_mark c.1 c.2 g) (ih _)

/-! ## Lemmas: pitch clamping at the poles -/

theorem toCell_clamp_hi (y : ℚ) : toCell y 95 = toCell y 90 := by
  apply Prod.ext (toCell_fst_pitch y 95 90)
  show (max 0 (min ((GRID_ROWS : ℤ) - 1) ⌊(90 - (95 : ℚ)) / CELL_SIZE⌋)).toNat =
    (max 0 (min ((GRID_ROWS : ℤ) - 1) ⌊(90 - (90 : ℚ)) / CELL_SIZE⌋)).toNat
  norm_num [CELL_SIZE, GRID_ROWS]

theorem toCell_clamp_lo (y : ℚ) : toCell y (-95) = toCell y (-90) := by
  apply Prod.ext (toCell_fst_pitch y (-95) (-90))
  show (max 0 (min ((GRID_ROWS : ℤ) - 1) ⌊(90 - (-95 : ℚ)) / CELL_SIZE⌋)).toNat =
    (max 0 (min ((GRID_ROWS : ℤ) - 1) ⌊(90 - (-90 : ℚ)) / CELL_SIZE⌋)).toNat
  norm_num [CELL_SIZE, GRID_ROWS]

/-- C7.  Cell addressing is safe for every real yaw and pitch: the column
is always inside `[0, GRID_COLS)` and the row inside `[0, GRID_ROWS)`;
pitches of 95 and -95 clamp to the same cells as 90 and -90 (no wrap to
the opposite pole); and `markCoverage` never writes an index outside the
flat array. -/
theorem toCell_bounds_and_clamp (y p : ℚ) :
    ((toCell y p).1 < GRID_COLS ∧ (toCell y p).2 < GRID_ROWS)
    ∧ toCell y 95 = toCell y 90
    ∧ toCell y (-95) = toCell y (-90)
    ∧ ∀ (g : Grid) (i : ℕ), TOTAL_CELLS ≤ i → markCoverage y p g i = g i :=
  ⟨⟨toCell_fst_lt y p, toCell_snd_lt y p⟩, toCell_clamp_hi y, toCell_clamp_lo y,
   fun g i hi => markCoverage_oob y p g i hi⟩

/-- Witness for `toCell_bounds_and_clamp`: index 3000 lies outside the
2592-cell array and is left untouched by a concrete `markCoverage` call. -/
theorem toCell_bounds_and_clamp_witness :
    TOTAL_CELLS ≤ 3000 ∧ markCoverage 0 0 emptyGrid 3000 = emptyGrid 3000 :=
  ⟨by decide, (toCell_bounds_and_clamp 0 0).2.2.2 emptyGrid 3000 (by decide)⟩

/-! ## Lemmas: concrete footprint evaluation -/

theorem dxListMark_eq :
    dxListMark = (List.range 8).map (fun k : ℕ => -(39 / 2 : ℚ) + 5 * (k : ℚ)) := by
  unfold dxListMark floatLoop PHOTO_H_SPAN H_FOV CELL_SIZE
  norm_num
  rfl

theorem dyListMark_eq :
    dyListMark = (List.range 11).map (fun k : ℕ => -(26 : ℚ) + 5 * (k : ℚ)) := by
  unfold dyListMark floatLoop PHOTO_V_SPAN V_FOV CELL_SIZE
  norm_num
  rfl

/-- The column visited by the k-th horizontal footprint sample of a photo
at yaw 0 with an equatorial row: the wrapped columns `68..71, 0..3`. -/
theorem colAt18 (k : ℕ) (hk : k < 8) (p : ℚ) (hp1 : 90 ≤ 90 - p)
    (hp2 : 90 - p < 95) :
    toCell ((0 : ℚ) + (-(39 / 2) + 5 * (k : ℚ))) p = ((68 + k) % 72, 18) := by
  have h3 : ((18 : ℕ) : ℚ) * 5 ≤ 90 - p := by push_cast; linarith
  have h4 : 90 - p < ((18 : ℕ) : ℚ) * 5 + 5 := by push_cast; linarith
  interval_cases k
  · exact toCell_eval_neg _ p _ 18 (by norm_num) (by norm_num) (by norm_num)
      (by norm_num) (by norm_num) (by norm_num) h3 h4
  · exact toCell_eval_neg _ p _ 18 (by norm_num) (by norm_num) (by norm_num)
      (by norm_num) (by norm_num) (by norm_num) h3 h4
  · exact toCell_eval_neg _ p _ 18 (by norm_num) (by norm_num) (by norm_num)
      (by norm_num) (by norm_num) (by norm_num) h3 h4
  · exact toCell_eval_neg _ p _ 18 (by norm_num) (by norm_num) (by norm_num)
      (by norm_num) (by norm_num) (by norm_num) h3 h4
  · exact toCell_eval_pos _ p _ 18 (by norm_num) (by norm_num) (by norm_num)
      (by norm_num) (by norm_num) (by norm_num) h3 h4
  · exact toCell_eval_pos _ p _ 18 (by norm_num) (by norm_num) (by norm_num)
      (by norm_num) (by norm_num) (by norm_num) h3 h4
  · exact toCell_eval_pos _ p _ 18 (by norm_num) (by norm_num) (by norm_num)
      (by norm_num) (by norm_num) (by norm_num) h3 h4
  · exact toCell_eval_pos _ p _ 18 (by norm_num) (by norm_num) (by norm_num)
      (by norm_num) (by norm_num) (by norm_num) h3 h4

/-- Every cell marked by a photo at yaw 0, pitch 0 sits in one of the
seam-straddling columns `68..71, 0..3`. -/
theorem mark00_cols (i : ℕ) (h : markCoverage 0 0 emptyGrid i = true) :
    i % 72 ∈ ([68, 69, 70, 71, 0, 1, 2, 3] : List ℕ) := by
  rcases (markCoverage_true_iff 0 0 emptyGrid i).mp h with
    ⟨dy, hdy, hcond, dx, hdx, hidx⟩ | hfalse
  · rw [dxListMark_eq] at hdx
    rcases List.mem_map.mp hdx with ⟨k, hk, hdxe⟩
    rw [List.mem_range] at hk
    subst hdxe
    have hcol : (toCell ((0 : ℚ) + (-(39 / 2) + 5 * (k : ℚ))) ((0 : ℚ) + dy)).1 =
        (68 + k) % 72 := by
      rw [toCell_fst_pitch _ _ 0, colAt18 k hk 0 (by norm_num) (by norm_num)]
    rw [← hidx, cellIndex, hcol]
    unfold GRID_COLS
    have hmod : ((toCell ((0 : ℚ) + (-(39 / 2) + 5 * (k : ℚ))) ((0 : ℚ) + dy)).2
        * 72 + (68 + k) % 72) % 72 = (68 + k) % 72 := by omega
    rw [hmod]
    interval_cases k <;> decide
  · simp [emptyGrid] at hfalse

/-- Every seam-straddling column really is marked by a photo at yaw 0,
pitch 0 (in row 18). -/
theorem mark00_band_covered (k : ℕ) (hk : k < 8) :
    markCoverage 0 0 emptyGrid (18 * 72 + (68 + k) % 72) = true := by
  apply (markCoverage_true_iff 0 0 emptyGrid _).mpr
  left
  refine ⟨-1, ?_, by norm_num, -(39 / 2) + 5 * (k : ℚ), ?_, ?_⟩
  · rw [dyListMark_eq]
    exact List.mem_map.mpr ⟨5, List.mem_range.mpr (by norm_num), by norm_num⟩
  · rw [dxListMark_eq]
    exact List.mem_map.mpr ⟨k, List.mem_range.mpr hk, rfl⟩
  · rw [colAt18 k hk ((0 : ℚ) + -1) (by norm_num) (by norm_num)]
    rfl

/-- The concrete cell at row 18, column 0 (flat index 1296) is marked by a
photo at yaw 0, pitch 0. -/
theorem mark00_covered_1296 : markCoverage 0 0 emptyGrid 1296 = true := by
  have h := mark00_band_covered 4 (by norm_num)
  norm_num at h
  exact h

/-- C6.  Wraparound correctness: yaw is wrapped modulo 360 before cell
addressing (cells are 360-degree periodic in yaw), and a photo footprint
centered at yaw 0 (straddling the 360 to 0 seam) covers exactly one band
of columns that is contiguous modulo `GRID_COLS`: the eight columns
`(68 + k) % 72` for `k < 8`, that is `68..71` followed by `0..3` — not two
disjoint bands. -/
theorem markCoverage_wraparound_band :
    (∀ (y p : ℚ), toCell (y + 360) p = toCell y p)
    ∧ (∀ i : ℕ, markCoverage 0 0 emptyGrid i = true →
        ∃ k < 8, i % 72 = (68 + k) % 72)
    ∧ (∀ k : ℕ, k < 8 →
        ∃ i : ℕ, markCoverage 0 0 emptyGrid i = true ∧ i % 72 = (68 + k) % 72) := by
  refine ⟨?_, ?_, ?_⟩
  · intro y p
    simp only [toCell, wrap360_add_360]
  · intro i h
    have hmem := mark00_cols i h
    simp only [List.mem_cons, List.not_mem_nil, or_false] at hmem
    rcases hmem with h | h | h | h | h | h | h | h
    exacts [⟨0, by norm_num, by omega⟩, ⟨1, by norm_num, by omega⟩,
      ⟨2, by norm_num, by omega⟩, ⟨3, by norm_num, by omega⟩,
      ⟨4, by norm_num, by omega⟩, ⟨5, by norm_num, by omega⟩,
      ⟨6, by norm_num, by omega⟩, ⟨7, by norm_num, by omega⟩]
  · intro k hk
    exact ⟨18 * 72 + (68 + k) % 72, mark00_band_covered k hk, by omega⟩

/-- Witness for `markCoverage_wraparound_band`: the concretely marked flat
index 1296 (row 18, column 0) lies in the contiguous seam band. -/
theorem markCoverage_wraparound_band_witness :
    markCoverage 0 0 emptyGrid 1296 = true ∧
      ∃ k < 8, 1296 % 72 = (68 + k) % 72 :=
  ⟨mark00_covered_1296,
   markCoverage_wraparound_band.2.1 1296 mark00_covered_1296⟩

/-! ## Lemmas: auto-capture guard evaluation -/

/-- Evaluation rule for one field-of-view sample. -/
theorem sampleCovered_at (g : Grid) (yaw pitch dx dy : ℚ) (c r : ℕ)
    (h : toCell (yaw + dx) (max (-90) (min 90 (pitch + dy))) = (c, r)) :
    sampleCovered g yaw pitch (dx, dy) = g (cellIndex r c) := by
  simp only [sampleCovered]
  rw [h]

/-- The five samples of an orientation at yaw 0, pitch 0, as flat
indices. -/
theorem sampleCovered_eval00 (g : Grid) :
    sampleCovered g 0 0 ((0 : ℚ), (0 : ℚ)) = g 1296
    ∧ sampleCovered g 0 0 (H_FOV * (3 / 10), 0) = g 1299
    ∧ sampleCovered g 0 0 (-(H_FOV * (3 / 10)), 0) = g 1364
    ∧ sampleCovered g 0 0 ((0 : ℚ), V_FOV * (3 / 10)) = g 936
    ∧ sampleCovered g 0 0 ((0 : ℚ), -(V_FOV * (3 / 10))) = g 1584 := by
  have hp0 : max (-90 : ℚ) (min 90 ((0 : ℚ) + 0)) = 0 := by norm_num
  refine ⟨?_, ?_, ?_, ?_, ?_⟩
  · rw [show (1296 : ℕ) = cellIndex 18 0 by norm_num [cellIndex, GRID_COLS]]
    apply sampleCovered_at
    rw [hp0]
    exact toCell_eval_pos _ _ 0 18 (by norm_num) (by norm_num) (by norm_num)
      (by norm_num) (by norm_num) (by norm_num) (by norm_num) (by norm_num)
  · rw [show (1299 : ℕ) = cellIndex 18 3 by norm_num [cellIndex, GRID_COLS]]
    apply sampleCovered_at
    rw [hp0]
    exact toCell_eval_pos _ _ 3 18 (by norm_num) (by norm_num)
      (by norm_num [H_FOV]) (by norm_num [H_FOV]) (by norm_num [H_FOV])
      (by norm_num [H_FOV]) (by norm_num) (by norm_num)
  · rw [show (1364 : ℕ) = cellIndex 18 68 by norm_num [cellIndex, GRID_COLS]]
    apply sampleCovered_at
    rw [hp0]
    exact toCell_eval_neg _ _ 68 18 (by norm_num) (by norm_num)
      (by norm_num [H_FOV]) (by norm_num [H_FOV]) (by norm_num [H_FOV])
      (by norm_num [H_FOV]) (by norm_num) (by norm_num)
  · rw [show (936 : ℕ) = cellIndex 13 0 by norm_num [cellIndex, GRID_COLS]]
    apply sampleCovered_at
    rw [show max (-90 : ℚ) (min 90 ((0 : ℚ) + V_FOV * (3 / 10))) = 24 by
          norm_num [V_FOV]]
    exact toCell_eval_pos _ _ 0 13 (by norm_num) (by norm_num) (by norm_num)
      (by norm_num) (by norm_num) (by norm_num) (by norm_num) (by norm_num)
  · rw [show (1584 : ℕ) = cellIndex 22 0 by norm_num [cellIndex, GRID_COLS]]
    apply sampleCovered_at
    rw [show max (-90 : ℚ) (min 90 ((0 : ℚ) + -(V_FOV * (3 / 10)))) = -24 by
          norm_num [V_FOV]]
    exact toCell_eval_pos _ _ 0 22 (by norm_num) (by norm_num) (by norm_num)
      (by norm_num) (by norm_num) (by norm_num) (by norm_num) (by norm_num)

theorem coveredSamples_gridOneCell : coveredSamples gridOneCell 0 0 = 1 := by
  obtain ⟨e1, e2, e3, e4, e5⟩ := sampleCovered_eval00 gridOneCell
  simp only [coveredSamples, sampleOffsets, List.countP_cons, List.countP_nil,
    e1, e2, e3, e4, e5]
  norm_num [gridOneCell, setCell, emptyGrid, cellIndex, GRID_COLS]

theorem uncoveredSamples_gridOneCell : uncoveredSamples gridOneCell 0 0 = 4 := by
  obtain ⟨e1, e2, e3, e4, e5⟩ := sampleCovered_eval00 gridOneCell
  simp only [uncoveredSamples, sampleOffsets, List.countP_cons, List.countP_nil,
    e1, e2, e3, e4, e5]
  norm_num [gridOneCell, setCell, emptyGrid, cellIndex, GRID_COLS]

theorem coveredSamples_emptyGrid (yaw pitch : ℚ) :
    coveredSamples emptyGrid yaw pitch = 0 := by
  simp [coveredSamples, sampleCovered, emptyGrid]

theorem uncoveredSamples_emptyGrid (yaw pitch : ℚ) :
    uncoveredSamples emptyGrid yaw pitch = 5 := by
  simp [uncoveredSamples, sampleOffsets, sampleCovered, emptyGrid]

/-- C1.  The auto-capture guard, evaluated on a tick in the capturing
phase with no capture in flight and a non-empty photo list, fires iff at
least one sample is covered, at least two samples are uncovered, the
angular rates on both axes are below the stability threshold, and the
cooldown has elapsed since the last capture.  Concretely: a sample set of
one covered and four uncovered cells (grid `gridOneCell` seen from yaw 0,
pitch 0) fires; zero covered and five uncovered (the empty grid) does
not. -/
theorem autoCapture_fires_iff :
    (∀ (phase : Phase) (snapping : Bool) (photosLen : ℕ) (now lastTs : ℤ)
        (rateA rateB : ℚ) (g : Grid) (yaw pitch : ℚ),
        phase = Phase.capturing → snapping = false → photosLen ≠ 0 →
        (autoCaptureCheck phase snapping photosLen now lastTs rateA rateB
            g yaw pitch = true ↔
          (1 ≤ coveredSamples g yaw pitch ∧ 2 ≤ uncoveredSamples g yaw pitch)
          ∧ (rateA < STABILITY_THRESHOLD ∧ rateB < STABILITY_THRESHOLD)
          ∧ CAPTURE_COOLDOWN_MS ≤ now - lastTs))
    ∧ autoCaptureCheck Phase.capturing false 1 700 0 0 0 gridOneCell 0 0 = true
    ∧ autoCaptureCheck Phase.capturing false 1 700 0 0 0 emptyGrid 0 0 = false := by
  have hiff : ∀ (phase : Phase) (snapping : Bool) (photosLen : ℕ)
      (now lastTs : ℤ) (rateA rateB : ℚ) (g : Grid) (yaw pitch : ℚ),
      phase = Phase.capturing → snapping = false → photosLen ≠ 0 →
      (autoCaptureCheck phase snapping photosLen now lastTs rateA rateB
          g yaw pitch = true ↔
        (1 ≤ coveredSamples g yaw pitch ∧ 2 ≤ uncoveredSamples g yaw pitch)
        ∧ (rateA < STABILITY_THRESHOLD ∧ rateB < STABILITY_THRESHOLD)
        ∧ CAPTURE_COOLDOWN_MS ≤ now - lastTs) := by
    intro phase snapping photosLen now lastTs rateA rateB g yaw pitch hph hsn hlen
    subst hph
    subst hsn
    unfold autoCaptureCheck
    rw [if_neg (by simp), if_neg hlen]
    by_cases h1 : now - lastTs < CAPTURE_COOLDOWN_MS
    · rw [if_pos h1]
      constructor
      · intro hcon
        simp at hcon
      · rintro ⟨-, -, hcd⟩
        omega
    · rw [if_neg h1]
      by_cases h2 : rateA < STABILITY_THRESHOLD ∧ rateB < STABILITY_THRESHOLD
      · rw [if_neg (not_not_intro h2), decide_eq_true_eq]
        push_neg at h1
        constructor
        · intro hsamp
          exact ⟨hsamp, h2, h1⟩
        · rintro ⟨hsamp, -, -⟩
          exact hsamp
      · rw [if_pos h2]
        constructor
        · intro hcon
          simp at hcon
        · rintro ⟨-, hr, -⟩
          exact absurd hr h2
  refine ⟨hiff, ?_, ?_⟩
  · rw [hiff Phase.capturing false 1 700 0 0 0 gridOneCell 0 0 rfl rfl
        (by norm_num)]
    refine ⟨⟨?_, ?_⟩, ⟨?_, ?_⟩, ?_⟩
    · rw [coveredSamples_gridOneCell]
    · rw [uncoveredSamples_gridOneCell]
      norm_num
    · norm_num [STABILITY_THRESHOLD]
    · norm_num [STABILITY_THRESHOLD]
    · norm_num [CAPTURE_COOLDOWN_MS]
  · rw [← Bool.not_eq_true,
        hiff Phase.capturing false 1 700 0 0 0 emptyGrid 0 0 rfl rfl
          (by norm_num)]
    rintro ⟨⟨hcov, -⟩, -, -⟩
    rw [coveredSamples_emptyGrid] at hcov
    omega

/-- Witness for `autoCapture_fires_iff`: the guard characterization at the
one-covered-cell grid with all scoping hypotheses discharged. -/
theorem autoCapture_fires_iff_witness :
    Phase.capturing = Phase.capturing ∧ (false : Bool) = false ∧ (1 : ℕ) ≠ 0 ∧
      (autoCaptureCheck Phase.capturing false 1 700 0 0 0 gridOneCell 0 0 = true ↔
        (1 ≤ coveredSamples gridOneCell 0 0 ∧ 2 ≤ uncoveredSamples gridOneCell 0 0)
        ∧ ((0 : ℚ) < STABILITY_THRESHOLD ∧ (0 : ℚ) < STABILITY_THRESHOLD)
        ∧ CAPTURE_COOLDOWN_MS ≤ 700 - 0) :=
  ⟨rfl, rfl, by decide,
   autoCapture_fires_iff.1 Phase.capturing false 1 700 0 0 0 gridOneCell 0 0
     rfl rfl (by decide)⟩

/-! ## Lemmas: frontier guides -/

theorem foldl_inv {α β : Type} (P : β → Prop) (f : β → α → β) (l : List α)
    (b : β) (h0 : P b) (hstep : ∀ b a, P b → P (f b a)) : P (l.foldl f b) := by
  induction l generalizing b with
  | nil => exact h0
  | cons x xs ih => exact ih _ (hstep b x h0)

/-- Every guide emitted by the local pass points at an uncovered cell. -/
theorem localPass_uncovered (lastP : CapturedPhoto) (g : Grid) :
    ∀ gd ∈ localPass lastP g,
      g (cellIndex (toCell gd.yaw gd.pitch).2 (toCell gd.yaw gd.pitch).1) =
        false := by
  unfold localPass
  refine foldl_inv
    (fun acc : List FrontierGuide => ∀ gd ∈ acc,
      g (cellIndex (toCell gd.yaw gd.pitch).2 (toCell gd.yaw gd.pitch).1) =
        false) _ probeOffsets [] ?_ ?_
  · intro gd hgd
    exact absurd hgd (List.not_mem_nil gd)
  · intro acc pr hacc
    dsimp only
    by_cases hc : g (cellIndex
        (toCell (wrap360 (lastP.yaw + pr.1))
          (clampPitch (lastP.pitch + pr.2.1))).2
        (toCell (wrap360 (lastP.yaw + pr.1))
          (clampPitch (lastP.pitch + pr.2.1))).1) = true
    · rw [if_pos hc]
      exact hacc
    · rw [if_neg hc]
      intro gd hgd
      rcases List.mem_append.mp hgd with h | h
      · exact hacc gd h
      · rw [List.mem_singleton] at h
        subst h
        rw [Bool.not_eq_true] at hc
        exact hc

/-- The global pass preserves the all-uncovered property of the gathered
guides. -/
theorem globalPass_uncovered (curYaw : ℚ) (g : Grid)
    (acc0 : List FrontierGuide)
    (h0 : ∀ gd ∈ acc0,
      g (cellIndex (toCell gd.yaw gd.pitch).2 (toCell gd.yaw gd.pitch).1) =
        false) :
    ∀ gd ∈ globalPass curYaw g acc0,
      g (cellIndex (toCell gd.yaw gd.pitch).2 (toCell gd.yaw gd.pitch).1) =
        false := by
  unfold globalPass
  refine foldl_inv
    (fun acc : List FrontierGuide => ∀ gd ∈ acc,
      g (cellIndex (toCell gd.yaw gd.pitch).2 (toCell gd.yaw gd.pitch).1) =
        false) _ checkYaws acc0 h0 ?_
  intro acc cYaw hacc
  refine foldl_inv
    (fun acc2 : List FrontierGuide => ∀ gd ∈ acc2,
      g (cellIndex (toCell gd.yaw gd.pitch).2 (toCell gd.yaw gd.pitch).1) =
        false) _ checkPitches acc hacc ?_
  intro acc2 cPitch hacc2
  dsimp only
  by_cases hc : g (cellIndex (toCell cYaw cPitch).2
      (toCell cYaw cPitch).1) = true
  · rw [if_pos hc]
    exact hacc2
  · rw [if_neg hc]
    by_cases ht : tooClose acc2 cYaw cPitch = true
    · rw [if_pos ht]
      exact hacc2
    · rw [if_neg ht]
      intro gd hgd
      rcases List.mem_append.mp hgd with h | h
      · exact hacc2 gd h
      · rw [List.mem_singleton] at h
        subst h
        rw [Bool.not_eq_true] at hc
        exact hc

/-- C8.  `computeFrontierGuides` never returns a guide whose cell is
already covered: every guide of both the local probe pass and the global
lattice pass points at a currently uncovered cell. -/
theorem frontierGuides_uncovered (lastP : CapturedPhoto) (curYaw : ℚ)
    (g : Grid) :
    ∀ gd ∈ computeFrontierGuides lastP curYaw g,
      g (cellIndex (toCell gd.yaw gd.pitch).2 (toCell gd.yaw gd.pitch).1) =
        false := by
  unfold computeFrontierGuides
  exact globalPass_uncovered curYaw g _ (localPass_uncovered lastP g)

/-- Membership in the guide-emitting folds is monotone: every step either
keeps the accumulator or appends to it. -/
theorem mem_of_foldl_extends {α : Type}
    (f : List FrontierGuide → α → List FrontierGuide)
    (hext : ∀ acc a, ∀ gd ∈ acc, gd ∈ f acc a) (l : List α)
    (acc : List FrontierGuide) (gd : FrontierGuide) (h : gd ∈ acc) :
    gd ∈ l.foldl f acc :=
  foldl_inv (fun acc2 => gd ∈ acc2) f l acc h (fun b a hb => hext b a gd hb)

theorem mem_globalPass (curYaw : ℚ) (g : Grid) (acc0 : List FrontierGuide)
    (gd : FrontierGuide) (h : gd ∈ acc0) : gd ∈ globalPass curYaw g acc0 := by
  unfold globalPass
  apply mem_of_foldl_extends
  · intro acc cYaw gd2 hgd2
    apply mem_of_foldl_extends
    · intro acc2 cPitch gd3 hgd3
      dsimp only
      split_ifs <;> first
        | exact hgd3
        | exact List.mem_append_left _ hgd3
    · exact hgd2
  · exact h

/-- Witness for `frontierGuides_uncovered`: on the empty grid with a last
photo at yaw 0, pitch 0, the first local probe emits a guide, and its cell
is uncovered. -/
theorem frontierGuides_uncovered_witness :
    ∃ gd ∈ computeFrontierGuides ⟨true, 0, 0⟩ 0 emptyGrid,
      emptyGrid (cellIndex (toCell gd.yaw gd.pitch).2
        (toCell gd.yaw gd.pitch).1) = false := by
  have hmem : (⟨wrap360 ((⟨true, 0, 0⟩ : CapturedPhoto).yaw +
        PHOTO_H_SPAN * (75 / 100)),
      clampPitch ((⟨true, 0, 0⟩ : CapturedPhoto).pitch + 0),
      GuideDir.right⟩ : FrontierGuide) ∈
      computeFrontierGuides ⟨true, 0, 0⟩ 0 emptyGrid := by
    unfold computeFrontierGuides
    apply mem_globalPass
    unfold localPass probeOffsets
    rw [List.foldl_cons]
    apply mem_of_foldl_extends
    · intro acc pr gd2 hgd2
      dsimp only
      split_ifs with h1
      · exact hgd2
      · exact List.mem_append_left _ hgd2
    · dsimp only
      rw [if_neg (by simp [emptyGrid])]
      exact List.mem_singleton.mpr rfl
  exact ⟨_, hmem, frontierGuides_uncovered ⟨true, 0, 0⟩ 0 emptyGrid _ hmem⟩

/-! ## Lemmas: session events, reset race, first-photo invariant -/

/-- A cell of the yaw-0 footprint grid outside the seam band is
uncovered. -/
theorem mark00_uncovered_of_col (i : ℕ)
    (h : i % 72 ∉ ([68, 69, 70, 71, 0, 1, 2, 3] : List ℕ)) :
    markCoverage 0 0 emptyGrid i = false := by
  cases hg : markCoverage 0 0 emptyGrid i with
  | false => rfl
  | true => exact absurd (mark00_cols i hg) h

/-- The five samples of an orientation at yaw 20, pitch 0, as flat
indices. -/
theorem sampleCovered_eval20 (g : Grid) :
    sampleCovered g 20 0 ((0 : ℚ), (0 : ℚ)) = g 1300
    ∧ sampleCovered g 20 0 (H_FOV * (3 / 10), 0) = g 1303
    ∧ sampleCovered g 20 0 (-(H_FOV * (3 / 10)), 0) = g 1296
    ∧ sampleCovered g 20 0 ((0 : ℚ), V_FOV * (3 / 10)) = g 940
    ∧ sampleCovered g 20 0 ((0 : ℚ), -(V_FOV * (3 / 10))) = g 1588 := by
  have hp0 : max (-90 : ℚ) (min 90 ((0 : ℚ) + 0)) = 0 := by norm_num
  refine ⟨?_, ?_, ?_, ?_, ?_⟩
  · rw [show (1300 : ℕ) = cellIndex 18 4 by norm_num [cellIndex, GRID_COLS]]
    apply sampleCovered_at
    rw [hp0]
    exact toCell_eval_pos _ _ 4 18 (by norm_num) (by norm_num) (by norm_num)
      (by norm_num) (by norm_num) (by norm_num) (by norm_num) (by norm_num)
  · rw [show (1303 : ℕ) = cellIndex 18 7 by norm_num [cellIndex, GRID_COLS]]
    apply sampleCovered_at
    rw [hp0]
    exact toCell_eval_pos _ _ 7 18 (by norm_num) (by norm_num)
      (by norm_num [H_FOV]) (by norm_num [H_FOV]) (by norm_num [H_FOV])
      (by norm_num [H_FOV]) (by norm_num) (by norm_num)
  · rw [show (1296 : ℕ) = cellIndex 18 0 by norm_num [cellIndex, GRID_COLS]]
    apply sampleCovered_at
    rw [hp0]
    exact toCell_eval_pos _ _ 0 18 (by norm_num) (by norm_num)
      (by norm_num [H_FOV]) (by norm_num [H_FOV]) (by norm_num [H_FOV])
      (by norm_num [H_FOV]) (by norm_num) (by norm_num)
  · rw [show (940 : ℕ) = cellIndex 13 4 by norm_num [cellIndex, GRID_COLS]]
    apply sampleCovered_at
    rw [show max (-90 : ℚ) (min 90 ((0 : ℚ) + V_FOV * (3 / 10))) = 24 by
          norm_num [V_FOV]]
    exact toCell_eval_pos _ _ 4 13 (by norm_num) (by norm_num) (by norm_num)
      (by norm_num) (by norm_num) (by norm_num) (by norm_num) (by norm_num)
  · rw [show (1588 : ℕ) = cellIndex 22 4 by norm_num [cellIndex, GRID_COLS]]
    apply sampleCovered_at
    rw [show max (-90 : ℚ) (min 90 ((0 : ℚ) + -(V_FOV * (3 / 10)))) = -24 by
          norm_num [V_FOV]]
    exact toCell_eval_pos _ _ 4 22 (by norm_num) (by norm_num) (by norm_num)
      (by norm_num) (by norm_num) (by norm_num) (by norm_num) (by norm_num)

theorem coveredSamples_mark00_at20 :
    coveredSamples (markCoverage 0 0 emptyGrid) 20 0 = 1 := by
  obtain ⟨e1, e2, e3, e4, e5⟩ := sampleCovered_eval20 (markCoverage 0 0 emptyGrid)
  have u1 : markCoverage 0 0 emptyGrid 1300 = false :=
    mark00_uncovered_of_col 1300 (by decide)
  have u2 : markCoverage 0 0 emptyGrid 1303 = false :=
    mark00_uncovered_of_col 1303 (by decide)
  have u4 : markCoverage 0 0 emptyGrid 940 = false :=
    mark00_uncovered_of_col 940 (by decide)
  have u5 : markCoverage 0 0 emptyGrid 1588 = false :=
    mark00_uncovered_of_col 1588 (by decide)
  simp only [coveredSamples, sampleOffsets, List.countP_cons, List.countP_nil,
    e1, e2, e3, e4, e5, u1, u2, u4, u5, mark00_covered_1296]
  norm_num

theorem uncoveredSamples_mark00_at20 :
    uncoveredSamples (markCoverage 0 0 emptyGrid) 20 0 = 4 := by
  obtain ⟨e1, e2, e3, e4, e5⟩ := sampleCovered_eval20 (markCoverage 0 0 emptyGrid)
  have u1 : markCoverage 0 0 emptyGrid 1300 = false :=
    mark00_uncovered_of_col 1300 (by decide)
  have u2 : markCoverage 0 0 emptyGrid 1303 = false :=
    mark00_uncovered_of_col 1303 (by decide)
  have u4 : markCoverage 0 0 emptyGrid 940 = false :=
    mark00_uncovered_of_col 940 (by decide)
  have u5 : markCoverage 0 0 emptyGrid 1588 = false :=
    mark00_uncovered_of_col 1588 (by decide)
  simp only [uncoveredSamples, sampleOffsets, List.countP_cons, List.countP_nil,
    e1, e2, e3, e4, e5, u1, u2, u4, u5, mark00_covered_1296]
  norm_num

/-- The auto-capture guard fires at yaw 20, pitch 0 over the footprint of
a single photo taken at yaw 0, pitch 0 (one covered sample, four
uncovered), with rates 0 and an elapsed time of exactly the cooldown. -/
theorem guard_fires_at20 :
    autoCaptureCheck Phase.capturing false 1 700 0 0 0
      (markCoverage 0 0 emptyGrid) 20 0 = true := by
  unfold autoCaptureCheck
  rw [if_neg (by simp), if_neg (by norm_num),
      if_neg (by norm_num [CAPTURE_COOLDOWN_MS]),
      if_neg (not_not_intro
        (by constructor <;> norm_num [STABILITY_THRESHOLD]))]
  rw [decide_eq_true_eq, coveredSamples_mark00_at20, uncoveredSamples_mark00_at20]
  omega

/-- C5 (code evaluation).  A session reset while a capture is in flight
does not invalidate the capture: when the pending capture resolves after
`resetAll`, its photo is appended to the new (reset) session's photo list
and its footprint is marked on the re-initialized coverage grid. -/
theorem reset_leaks_inflight_capture :
    ((run [Event.start, Event.trigManual 0, Event.reset, Event.resolve 0 0]
        initState).photos.map (fun p => p.manual) = [true])
    ∧ (run [Event.start, Event.trigManual 0, Event.reset, Event.resolve 0 0]
        initState).phase = Phase.ready
    ∧ (run [Event.start, Event.trigManual 0, Event.reset, Event.resolve 0 0]
        initState).grid 1296 = true := by
  have hrun : run [Event.start, Event.trigManual 0, Event.reset,
      Event.resolve 0 0] initState =
      { phase := Phase.ready, photos := [⟨true, 0, 0⟩],
        grid := markCoverage 0 0 emptyGrid, lastCaptureTs := 0,
        pending := none } := by
    simp [run, step, initState]
  rw [hrun]
  exact ⟨rfl, rfl, mark00_covered_1296⟩

/-- C9 (counterexample).  Over the unrestricted event system, a reachable
state exists whose photo list is non-empty but whose first photo was
auto-triggered: an auto capture goes in flight, the session is reset, and
the stale capture resolves into the fresh session. -/
theorem first_photo_manual_counterexample :
    ((run [Event.start, Event.trigManual 0, Event.resolve 0 0,
        Event.tick 700 20 0 0 0, Event.reset, Event.resolve 20 0]
      initState).photos.map (fun p => p.manual)) = [false] := by
  have hrun3 : run [Event.start, Event.trigManual 0, Event.resolve 0 0]
      initState =
      { phase := Phase.capturing, photos := [⟨true, 0, 0⟩],
        grid := markCoverage 0 0 emptyGrid, lastCaptureTs := 0,
        pending := none } := by
    simp [run, step, initState]
  have hext : run [Event.start, Event.trigManual 0, Event.resolve 0 0,
        Event.tick 700 20 0 0 0, Event.reset, Event.resolve 20 0] initState =
      run [Event.tick 700 20 0 0 0, Event.reset, Event.resolve 20 0]
        (run [Event.start, Event.trigManual 0, Event.resolve 0 0] initState) := by
    simp [run]
  rw [hext, hrun3]
  simp [run, step, guard_fires_at20]

/-- The guard can only fire in the capturing phase, with no capture in
flight and a non-empty photo list. -/
theorem autoCaptureCheck_true_imp (phase : Phase) (snapping : Bool)
    (photosLen : ℕ) (now lastTs : ℤ) (rateA rateB : ℚ) (g : Grid)
    (yaw pitch : ℚ)
    (h : autoCaptureCheck phase snapping photosLen now lastTs rateA rateB
        g yaw pitch = true) :
    phase = Phase.capturing ∧ snapping = false ∧ photosLen ≠ 0 := by
  unfold autoCaptureCheck at h
  by_cases h1 : phase ≠ Phase.capturing ∨ snapping
  · rw [if_pos h1] at h
    exact absurd h (by simp)
  · push_neg at h1
    rw [if_neg (by push_neg; exact h1)] at h
    by_cases h2 : photosLen = 0
    · rw [if_pos h2] at h
      exact absurd h (by simp)
    · exact ⟨h1.1, by simpa using h1.2, h2⟩

theorem step_preserves_inv (st : SessionState) (e : Event) (hInv : SessInv st)
    (hsafe : e = Event.reset → st.pending = none) : SessInv (step st e) := by
  obtain ⟨h1, h2, h3⟩ := hInv
  cases e with
  | start =>
      simp only [step]
      by_cases hph : st.phase = Phase.ready
      · rw [if_pos hph]
        refine ⟨?_, ?_, ?_⟩
        · intro pr hpr
          simp at hpr
        · intro hpend
          exact absurd hpend (h3 hph)
        · intro _
          exact h3 hph
      · rw [if_neg hph]
        exact ⟨h1, h2, h3⟩
  | trigManual now =>
      simp only [step]
      by_cases hc : st.phase = Phase.capturing ∧ st.pending = none
      · rw [if_pos hc]
        refine ⟨h1, ?_, ?_⟩
        · intro hpend
          simp at hpend
        · intro hph
          rw [hc.1] at hph
          simp at hph
      · rw [if_neg hc]
        exact ⟨h1, h2, h3⟩
  | tick now yaw pitch rateA rateB =>
      simp only [step]
      by_cases hg : autoCaptureCheck st.phase st.pending.isSome
          st.photos.length now st.lastCaptureTs rateA rateB st.grid yaw
          pitch = true
      · rw [if_pos hg]
        obtain ⟨hph, -, hlen⟩ := autoCaptureCheck_true_imp _ _ _ _ _ _ _ _ _ _ hg
        refine ⟨h1, ?_, ?_⟩
        · intro _
          intro hnil
          rw [hnil] at hlen
          simp at hlen
        · intro hready
          rw [hph] at hready
          simp at hready
      · rw [if_neg hg]
        exact ⟨h1, h2, h3⟩
  | resolve yaw pitch =>
      simp only [step]
      cases hp : st.pending with
      | none => exact ⟨h1, h2, h3⟩
      | some m =>
          refine ⟨?_, ?_, ?_⟩
          · intro pr hpr
            cases hphotos : st.photos with
            | nil =>
                cases m with
                | false => exact absurd hphotos (h2 hp)
                | true =>
                    rw [hphotos] at hpr
                    simp only [List.nil_append, List.head?_cons,
                      Option.some.injEq] at hpr
                    rw [← hpr]
            | cons p t =>
                rw [hphotos] at hpr
                simp only [List.cons_append, List.head?_cons,
                  Option.some.injEq] at hpr
                exact h1 pr (by rw [hphotos, List.head?_cons, hpr])
          · intro hpend
            simp at hpend
          · intro _
            simp
  | resolveFail =>
      simp only [step]
      refine ⟨h1, ?_, ?_⟩
      · intro hpend
        simp at hpend
      · intro _
        simp
  | reset =>
      simp only [step]
      have hpend := hsafe rfl
      refine ⟨?_, ?_, ?_⟩
      · intro pr hpr
        simp at hpr
      · intro hp
        rw [hpend] at hp
        simp at hp
      · intro _
        rw [hpend]
        simp

theorem run_preserves_inv :
    ∀ (tr : List Event) (st : SessionState), SessInv st →
      noResetWhilePending st tr = true → SessInv (run tr st) := by
  intro tr
  induction tr with
  | nil =>
      intro st hInv _
      exact hInv
  | cons e es ih =>
      intro st hInv hnr
      unfold noResetWhilePending at hnr
      rw [Bool.and_eq_true] at hnr
      have hsafe : e = Event.reset → st.pending = none := by
        intro he
        subst he
        exact Option.isNone_iff_eq_none.mp hnr.1
      exact ih (step st e) (step_preserves_inv st e hInv hsafe) hnr.2

theorem initState_inv : SessInv initState := by
  refine ⟨?_, ?_, ?_⟩
  · intro pr hpr
    simp [initState] at hpr
  · intro h
    simp [initState] at h
  · intro _
    simp [initState]

/-- C9 (amended).  The auto-capture guard never fires while the photo
list is empty; and along every execution in which no reset happens while a
capture is in flight, every reachable state with a non-empty photo list
has a manually triggered photo at position one. -/
theorem first_photo_manual_amended :
    (∀ (phase : Phase) (snapping : Bool) (now lastTs : ℤ) (rateA rateB : ℚ)
        (g : Grid) (yaw pitch : ℚ),
        autoCaptureCheck phase snapping 0 now lastTs rateA rateB g yaw
          pitch = false)
    ∧ (∀ (tr : List Event), noResetWhilePending initState tr = true →
        ∀ pr, (run tr initState).photos.head? = some pr →
          pr.manual = true) := by
  constructor
  · intro phase snapping now lastTs rateA rateB g yaw pitch
    unfold autoCaptureCheck
    split_ifs with h1 h2 <;> first | rfl | exact absurd rfl h2
  · intro tr hnr pr hpr
    exact (run_preserves_inv tr initState initState_inv hnr).1 pr hpr

/-- Witness for `first_photo_manual_amended`: a reset-free trace with one
manual capture; the resulting head photo is manual. -/
theorem first_photo_manual_amended_witness :
    noResetWhilePending initState
        [Event.start, Event.trigManual 0, Event.resolve 0 0] = true
    ∧ (run [Event.start, Event.trigManual 0, Event.resolve 0 0]
        initState).photos.head? = some ⟨true, 0, 0⟩
    ∧ (⟨true, 0, 0⟩ : CapturedPhoto).manual = true :=
  ⟨by decide, by decide,
   first_photo_manual_amended.2
     [Event.start, Event.trigManual 0, Event.resolve 0 0] (by decide)
     ⟨true, 0, 0⟩ (by decide)⟩

/-! ## Lemmas: row-grouped stitch fallback -/

theorem mem_dedupFirstAux (x : ℤ) :
    ∀ (l seen : List ℤ), x ∈ dedupFirstAux seen l ↔ x ∈ l ∧ x ∉ seen := by
  intro l
  induction l with
  | nil => simp [dedupFirstAux]
  | cons y ys ih =>
      intro seen
      simp only [dedupFirstAux]
      by_cases hy : y ∈ seen
      · rw [if_pos hy, ih]
        simp only [List.mem_cons]
        constructor
        · rintro ⟨hx, hns⟩
          exact ⟨Or.inr hx, hns⟩
        · rintro ⟨hx | hx, hns⟩
          · exact absurd (hx ▸ hy) hns
          · exact ⟨hx, hns⟩
      · rw [if_neg hy]
        simp only [List.mem_cons, ih]
        constructor
        · rintro (rfl | ⟨hys, hn⟩)
          · exact ⟨Or.inl rfl, hy⟩
          · exact ⟨Or.inr hys, fun hs => hn (Or.inr hs)⟩
        · rintro ⟨rfl | hx, hns⟩
          · exact Or.inl rfl
          · by_cases hxy : x = y
            · exact Or.inl hxy
            · refine Or.inr ⟨hx, fun hc => ?_⟩
              rcases hc with h | h
              · exact hxy h
              · exact hns h

theorem nodup_dedupFirstAux :
    ∀ (l seen : List ℤ), (dedupFirstAux seen l).Nodup := by
  intro l
  induction l with
  | nil => intro seen; simp [dedupFirstAux]
  | cons y ys ih =>
      intro seen
      simp only [dedupFirstAux]
      by_cases hy : y ∈ seen
      · rw [if_pos hy]
        exact ih seen
      · rw [if_neg hy]
        rw [List.nodup_cons]
        refine ⟨?_, ih (y :: seen)⟩
        intro hmem
        exact ((mem_dedupFirstAux y ys (y :: seen)).mp hmem).2 (List.mem_cons_self y seen)

theorem mem_dedupFirst (x : ℤ) (l : List ℤ) : x ∈ dedupFirst l ↔ x ∈ l := by
  unfold dedupFirst
  rw [mem_dedupFirstAux]
  simp

theorem nodup_dedupFirst (l : List ℤ) : (dedupFirst l).Nodup :=
  nodup_dedupFirstAux l []

theorem dedupFirst_ne_nil (l : List ℤ) (h : l ≠ []) : dedupFirst l ≠ [] := by
  cases l with
  | nil => exact absurd rfl h
  | cons y ys =>
      unfold dedupFirst dedupFirstAux
      rw [if_neg (List.not_mem_nil y)]
      exact List.cons_ne_nil _ _

theorem mem_insertDescInt (x a : ℤ) :
    ∀ l : List ℤ, a ∈ insertDescInt x l ↔ a = x ∨ a ∈ l := by
  intro l
  induction l with
  | nil => simp [insertDescInt]
  | cons y ys ih =>
      simp only [insertDescInt]
      split_ifs with h
      · simp [List.mem_cons]
      · simp only [List.mem_cons, ih]
        tauto

theorem pairwise_gt_insertDescInt (x : ℤ) :
    ∀ l : List ℤ, l.Pairwise (fun a b => b < a) → x ∉ l →
      (insertDescInt x l).Pairwise (fun a b => b < a) := by
  intro l
  induction l with
  | nil =>
      intro _ _
      simp [insertDescInt]
  | cons y ys ih =>
      intro hp hx
      rw [List.pairwise_cons] at hp
      obtain ⟨hy, hys⟩ := hp
      simp only [insertDescInt]
      split_ifs with h
      · rw [List.pairwise_cons]
        refine ⟨?_, List.pairwise_cons.mpr ⟨hy, hys⟩⟩
        intro b hb
        rcases List.mem_cons.mp hb with rfl | hb
        · exact h
        · exact lt_trans (hy b hb) h
      · rw [List.pairwise_cons]
        constructor
        · intro b hb
          rcases (mem_insertDescInt x b ys).mp hb with rfl | hb
          · rcases lt_or_eq_of_le (not_lt.mp h) with hlt | heq
            · exact hlt
            · exact absurd heq.symm (fun hc => hx (hc ▸ List.mem_cons_self y ys))
          · exact hy b hb
        · exact ih hys (fun hc => hx (List.mem_cons_of_mem y hc))

theorem length_insertDescInt (x : ℤ) :
    ∀ l : List ℤ, (insertDescInt x l).length = l.length + 1 := by
  intro l
  induction l with
  | nil => rfl
  | cons y ys ih =>
      simp only [insertDescInt]
      split_ifs with h
      · rfl
      · simp [ih]

theorem mem_sortDescInt_aux (a : ℤ) :
    ∀ (l acc : List ℤ),
      a ∈ l.foldl (fun acc x => insertDescInt x acc) acc ↔ a ∈ acc ∨ a ∈ l := by
  intro l
  induction l with
  | nil => simp
  | cons x xs ih =>
      intro acc
      rw [List.foldl_cons, ih, mem_insertDescInt]
      simp only [List.mem_cons]
      tauto

theorem mem_sortDescInt (a : ℤ) (l : List ℤ) : a ∈ sortDescInt l ↔ a ∈ l := by
  unfold sortDescInt
  rw [mem_sortDescInt_aux]
  simp

theorem sortDescInt_pairwise_aux :
    ∀ (l acc : List ℤ), acc.Pairwise (fun a b => b < a) →
      (∀ x ∈ l, x ∉ acc) → l.Nodup →
      (l.foldl (fun acc x => insertDescInt x acc) acc).Pairwise
        (fun a b => b < a) := by
  intro l
  induction l with
  | nil =>
      intro acc hacc _ _
      exact hacc
  | cons x xs ih =>
      intro acc hacc hfresh hnd
      rw [List.foldl_cons]
      rw [List.nodup_cons] at hnd
      refine ih _ (pairwise_gt_insertDescInt x acc hacc
        (hfresh x (List.mem_cons_self x xs))) ?_ hnd.2
      intro y hy hmem
      rcases (mem_insertDescInt x y acc).mp hmem with rfl | hmem
      · exact hnd.1 hy
      · exact hfresh y (List.mem_cons_of_mem x hy) hmem

theorem sortDescInt_pairwise (l : List ℤ) (hnd : l.Nodup) :
    (sortDescInt l).Pairwise (fun a b => b < a) :=
  sortDescInt_pairwise_aux l [] List.Pairwise.nil
    (fun x _ hc => absurd hc (List.not_mem_nil x)) hnd

theorem length_sortDescInt_aux :
    ∀ (l acc : List ℤ),
      (l.foldl (fun acc x => insertDescInt x acc) acc).length =
        acc.length + l.length := by
  intro l
  induction l with
  | nil => simp
  | cons x xs ih =>
      intro acc
      rw [List.foldl_cons, ih, length_insertDescInt]
      simp only [List.length_cons]
      omega

theorem sortDescInt_ne_nil (l : List ℤ) (h : l ≠ []) : sortDescInt l ≠ [] := by
  intro hc
  have hl := length_sortDescInt_aux l []
  unfold sortDescInt at hc
  rw [hc] at hl
  simp only [List.length_nil, Nat.zero_add] at hl
  exact h (List.length_eq_zero.mp hl.symm)

theorem rowKeys_pairwise (oris : List Ori) :
    (rowKeys oris).Pairwise (fun a b => b < a) :=
  sortDescInt_pairwise _ (nodup_dedupFirst _)

theorem mem_rowKeys (k : ℤ) (oris : List Ori) :
    k ∈ rowKeys oris ↔ ∃ o ∈ oris, pitchBucket o = k := by
  unfold rowKeys
  rw [mem_sortDescInt, mem_dedupFirst, List.mem_map]

theorem rowKeys_ne_nil (oris : List Ori) (h : oris ≠ []) : rowKeys oris ≠ [] := by
  unfold rowKeys
  apply sortDescInt_ne_nil
  apply dedupFirst_ne_nil
  simp only [ne_eq, List.map_eq_nil_iff]
  exact h

/-- Under the guard conditions, `try_row_stitch` returns the vertical
stack of the width-normalized row strips. -/
theorem try_row_stitch_eq (stitcher : List Img → Option Img)
    (images : List Img) (oris : List Ori) (h1 : oris.isEmpty = false)
    (h2 : oris.length = images.length) :
    try_row_stitch stitcher images oris =
      some (vstackImgs ((rowStrips stitcher images oris).map
        (normWidth (maxWidth (rowStrips stitcher images oris))))) := by
  unfold try_row_stitch
  rw [h1, decide_eq_false (not_not_intro h2)]
  simp only [Bool.or_self, Bool.false_eq_true, if_false]
  have hne : rowStrips stitcher images oris ≠ [] := by
    unfold rowStrips
    simp only [ne_eq, List.map_eq_nil_iff]
    exact rowKeys_ne_nil oris (by
      intro hc
      rw [hc] at h1
      simp [List.isEmpty] at h1)
  rw [if_neg (by
    intro hc
    exact hne (List.isEmpty_iff.mp hc))]

/-- C4.  The row-grouped fallback: photos are bucketed by pitch rounded to
the nearest 30 degrees; a single-photo bucket passes through unchanged; a
bucket whose stitch fails degrades to its first photo; the bucket keys are
iterated in strictly descending pitch order; and the resulting strips are
normalized to the common maximal width and stacked vertically. -/
theorem row_fallback_structure (stitcher : List Img → Option Img)
    (images : List Img) (oris : List Ori) :
    (∀ i : Img, stitchRow stitcher [i] = i)
    ∧ (∀ (i j : Img) (rest : List Img), stitcher (i :: j :: rest) = none →
        stitchRow stitcher (i :: j :: rest) = i)
    ∧ (rowKeys oris).Pairwise (fun a b => b < a)
    ∧ (∀ k : ℤ, k ∈ rowKeys oris ↔ ∃ o ∈ oris, pitchBucket o = k)
    ∧ (∀ (k : ℤ) (img : Img), img ∈ bucketImgs images oris k →
        ∃ p ∈ images.zip oris, p.1 = img ∧ pitchBucket p.2 = k)
    ∧ (∀ (mw : ℕ) (r : Img), (normWidth mw r).w = mw)
    ∧ (oris.isEmpty = false → oris.length = images.length →
        try_row_stitch stitcher images oris =
          some (vstackImgs ((rowStrips stitcher images oris).map
            (normWidth (maxWidth (rowStrips stitcher images oris)))))) := by
  refine ⟨?_, ?_, rowKeys_pairwise oris, fun k => mem_rowKeys k oris, ?_, ?_, ?_⟩
  · intro i
    rfl
  · intro i j rest hfail
    unfold stitchRow
    rw [hfail]
  · intro k img hmem
    unfold bucketImgs at hmem
    rcases List.mem_filterMap.mp hmem with ⟨p, hp, hpk⟩
    by_cases hb : pitchBucket p.2 = k
    · rw [if_pos hb] at hpk
      exact ⟨p, hp, Option.some_injective _ hpk, hb⟩
    · rw [if_neg hb] at hpk
      exact absurd hpk (Option.some_ne_none _).symm
  · intro mw r
    unfold normWidth
    split_ifs with h
    · exact h
    · rfl
  · intro h1 h2
    exact try_row_stitch_eq stitcher images oris h1 h2

/-- Witness for `row_fallback_structure`: a concrete three-photo set in a
single pitch bucket, with a stitcher that always fails. -/
theorem row_fallback_structure_witness :
    ([⟨0, 0⟩, ⟨60, 0⟩, ⟨120, 0⟩] : List Ori).isEmpty = false
    ∧ ([⟨0, 0⟩, ⟨60, 0⟩, ⟨120, 0⟩] : List Ori).length =
        ([⟨100, 50, 0⟩, ⟨100, 50, 1⟩, ⟨100, 50, 2⟩] : List Img).length
    ∧ try_row_stitch (fun _ => none)
        [⟨100, 50, 0⟩, ⟨100, 50, 1⟩, ⟨100, 50, 2⟩]
        [⟨0, 0⟩, ⟨60, 0⟩, ⟨120, 0⟩] =
      some (vstackImgs ((rowStrips (fun _ => none)
          [⟨100, 50, 0⟩, ⟨100, 50, 1⟩, ⟨100, 50, 2⟩]
          [⟨0, 0⟩, ⟨60, 0⟩, ⟨120, 0⟩]).map
        (normWidth (maxWidth (rowStrips (fun _ => none)
          [⟨100, 50, 0⟩, ⟨100, 50, 1⟩, ⟨100, 50, 2⟩]
          [⟨0, 0⟩, ⟨60, 0⟩, ⟨120, 0⟩]))))) :=
  ⟨rfl, rfl,
   (row_fallback_structure (fun _ => none)
     [⟨100, 50, 0⟩, ⟨100, 50, 1⟩, ⟨100, 50, 2⟩]
     [⟨0, 0⟩, ⟨60, 0⟩, ⟨120, 0⟩]).2.2.2.2.2.2 rfl rfl⟩

/-- C3.  When the whole-set stitch fails, `stitch_equirectangular` is
exactly the row-grouped fallback result pushed through the crop and the
forced 4096 by 2048 resize; and every image the pipeline returns, on
either path, has width 4096 and height 2048, hence an exact 2:1 aspect
ratio. -/
theorem stitch_fallback_two_to_one (stitcher : List Img → Option Img)
    (crop : Img → Img) (images : List Img) (oris : List Ori) :
    (stitcher (sortedPhotoPair images oris).1 = none →
      stitch_equirectangular stitcher crop images oris =
        Option.map (fun pano => resizeTo 4096 2048 (crop pano))
          (try_row_stitch stitcher (sortedPhotoPair images oris).1
            (sortedPhotoPair images oris).2))
    ∧ (∀ img : Img, stitch_equirectangular stitcher crop images oris = some img →
        img.w = 4096 ∧ img.h = 2048 ∧ img.w = 2 * img.h) := by
  constructor
  · intro hfail
    simp only [stitch_equirectangular]
    rw [hfail]
    cases ht : try_row_stitch stitcher (sortedPhotoPair images oris).1
        (sortedPhotoPair images oris).2 with
    | none => rfl
    | some pano => rfl
  · intro img h
    simp only [stitch_equirectangular] at h
    cases hs : stitcher (sortedPhotoPair images oris).1 with
    | some pano =>
        rw [hs] at h
        simp only [Option.some.injEq] at h
        rw [← h]
        exact ⟨rfl, rfl, by norm_num [resizeTo]⟩
    | none =>
        rw [hs] at h
        cases ht : try_row_stitch stitcher (sortedPhotoPair images oris).1
            (sortedPhotoPair images oris).2 with
        | none =>
            rw [ht] at h
            exact absurd h (by simp)
        | some pano =>
            rw [ht] at h
            simp only [Option.some.injEq] at h
            rw [← h]
            exact ⟨rfl, rfl, by norm_num [resizeTo]⟩

/-- Witness for `stitch_fallback_two_to_one`: a stitcher that always
fails, an identity crop, and a concrete photo set; the pipeline equals the
fallback result. -/
theorem stitch_fallback_two_to_one_witness :
    (fun _ : List Img => (none : Option Img))
        (sortedPhotoPair [⟨100, 50, 0⟩, ⟨100, 50, 1⟩, ⟨100, 50, 2⟩]
          [⟨0, 0⟩, ⟨60, 0⟩, ⟨120, 0⟩]).1 = none
    ∧ stitch_equirectangular (fun _ => none) (fun i => i)
        [⟨100, 50, 0⟩, ⟨100, 50, 1⟩, ⟨100, 50, 2⟩]
        [⟨0, 0⟩, ⟨60, 0⟩, ⟨120, 0⟩] =
      Option.map (fun pano => resizeTo 4096 2048 ((fun i => i) pano))
        (try_row_stitch (fun _ => none)
          (sortedPhotoPair [⟨100, 50, 0⟩, ⟨100, 50, 1⟩, ⟨100, 50, 2⟩]
            [⟨0, 0⟩, ⟨60, 0⟩, ⟨120, 0⟩]).1
          (sortedPhotoPair [⟨100, 50, 0⟩, ⟨100, 50, 1⟩, ⟨100, 50, 2⟩]
            [⟨0, 0⟩, ⟨60, 0⟩, ⟨120, 0⟩]).2) :=
  ⟨rfl,
   (stitch_fallback_two_to_one (fun _ => none) (fun i => i)
     [⟨100, 50, 0⟩, ⟨100, 50, 1⟩, ⟨100, 50, 2⟩]
     [⟨0, 0⟩, ⟨60, 0⟩, ⟨120, 0⟩]).1 rfl⟩

/-- C10.  When the Python/OpenCV stitching capability is unavailable, the
stitch endpoint still answers success with method `simple`, returning the
first uploaded photo unchanged; in particular the artifact's aspect ratio
is not forced to 2:1. -/
theorem simple_mode_returns_first_photo (photos : List Img) :
    (3 ≤ photos.length →
      (handleStitchPanorama false none photos).success = true
      ∧ (handleStitchPanorama false none photos).method =
          some StitchMethod.simple
      ∧ (handleStitchPanorama false none photos).output = photos.head?)
    ∧ ∃ ps : List Img, 3 ≤ ps.length
        ∧ (handleStitchPanorama false none ps).success = true
        ∧ ∃ img, (handleStitchPanorama false none ps).output = some img
            ∧ img.w ≠ 2 * img.h := by
  constructor
  · intro hlen
    unfold handleStitchPanorama
    rw [if_neg (by omega)]
    cases photos with
    | nil => simp at hlen
    | cons p rest => simp [createSimplePanorama]
  · refine ⟨[⟨100, 100, 0⟩, ⟨100, 100, 1⟩, ⟨100, 100, 2⟩], by norm_num, by decide,
      ⟨100, 100, 0⟩, by decide, by decide⟩

/-- Witness for `simple_mode_returns_first_photo`: three square uploads in
simple mode. -/
theorem simple_mode_returns_first_photo_witness :
    3 ≤ ([⟨100, 100, 0⟩, ⟨100, 100, 1⟩, ⟨100, 100, 2⟩] : List Img).length
    ∧ (handleStitchPanorama false none
        [⟨100, 100, 0⟩, ⟨100, 100, 1⟩, ⟨100, 100, 2⟩]).success = true
    ∧ (handleStitchPanorama false none
        [⟨100, 100, 0⟩, ⟨100, 100, 1⟩, ⟨100, 100, 2⟩]).method =
          some StitchMethod.simple
    ∧ (handleStitchPanorama false none
        [⟨100, 100, 0⟩, ⟨100, 100, 1⟩, ⟨100, 100, 2⟩]).output =
          ([⟨100, 100, 0⟩, ⟨100, 100, 1⟩, ⟨100, 100, 2⟩] : List Img).head? :=
  ⟨by decide,
   (simple_mode_returns_first_photo
     [⟨100, 100, 0⟩, ⟨100, 100, 1⟩, ⟨100, 100, 2⟩]).1 (by decide)⟩



end Panorama
